import Mathlib

/-! # HairOne backend: ledger fields, completion gate and weekly settlement job

A shallow embedding of the Go backend under `go-backend/internal`:

* `models.Booking` and the `bookings` / `settlements` tables,
* `api.BookingHandler.CreateBooking`, `api.BookingHandler.CompleteBooking`,
* `db.BookingRepository.{CreateBooking, GetBookingByID, UpdateBookingStatus}`,
* `service.SettlementService.RunSettlementJob` and `service.createSettlement`.

Conventions of the embedding.

* Money (`float64` in the source) is an exact rational number.
* A calendar date (text `YYYY-MM-DD` in the source) is the number of days since
  0001-01-01, which is day `0` and a Monday; the text form orders the same way.
* The relational store is a record of its two tables and its two id sequences.
  A database call that can return an error takes a fault argument saying whether
  it does; a transaction works on a private copy that replaces the store on commit.
* SQL leaves the order of `GROUP BY` rows and of `array_agg` open; the embedding
  fixes one order, taken from the order of the table.
* A history of the system is a list of operations (`Op`) applied one after the other;
  two overlapping job runs are an interleaving of their queries and their per-shop
  transactions (`overlappingRuns`).
-/

namespace HairOne

/-! ## Data model -/

/-- One row of the `bookings` table, with the columns of `models.Booking` that the
handlers and the settlement job read or write. `SettlementStatus` and `SettlementID`
are nullable columns. -/
structure Booking where
  ID : Int
  UserID : Option Int
  ShopID : Int
  BarberID : Int
  ServiceNames : String
  TotalPrice : ℚ
  TotalDuration : Int
  Date : Int
  StartTime : String
  EndTime : String
  Status : String
  BookingType : String
  PaymentMethod : String
  BookingKey : String
  OriginalPrice : ℚ
  DiscountAmount : ℚ
  FinalPrice : ℚ
  AdminCommission : ℚ
  AdminNetRevenue : ℚ
  BarberNetRevenue : ℚ
  SettlementStatus : Option String
  SettlementID : Option Int
deriving DecidableEq, Repr

/-- One row of the `settlements` table, as inserted by `createSettlement`. -/
structure Settlement where
  ID : Int
  ShopID : Int
  SType : String
  Amount : ℚ
  Status : String
  Bookings : List Int
  DateRangeStart : Int
  DateRangeEnd : Int
  Notes : String
deriving DecidableEq, Repr

/-- The relational store behind `db.Pool`: both tables and the next value of each
id sequence (`RETURNING id`). -/
structure Store where
  bookings : List Booking
  settlements : List Settlement
  nextBookingID : Int
  nextSettlementID : Int
deriving DecidableEq, Repr

/-- An HTTP answer: the status code, the text written by `http.Error` (empty on
success) and the booking encoded into the body, if any. -/
structure Response where
  code : Nat
  message : String
  booking : Option Booking
deriving DecidableEq, Repr

/-! ## Clock and cutoff (`settlement.go`, lines 19-30) -/

/-- A `time.Time` in a fixed-offset zone: seconds since Go's zero time
(0001-01-01 00:00:00 UTC) and the zone offset in seconds east of UTC. -/
structure Time where
  sec : Int
  offset : Int
deriving DecidableEq, Repr

/-- Day number of the calendar date shown by the zone's wall clock. -/
def Time.localDay (t : Time) : Int := (t.sec + t.offset) / 86400

/-- Day of the week of a day number, Sunday = 0 (day `0` is a Monday). -/
def dayWeekday (day : Int) : Int := (day + 1) % 7

/-- The method `Time.Weekday`: day of the week of the wall-clock date, Sunday = 0. -/
def Time.Weekday (t : Time) : Int := dayWeekday t.localDay

/-- The call `t.AddDate(0, 0, days)`: same wall-clock time, `days` calendar days later. -/
def Time.AddDate (t : Time) (days : Int) : Time := { t with sec := t.sec + days * 86400 }

/-- The method `Time.Truncate` for a duration of `d` seconds: rounds the absolute time
since the zero time down to a multiple of `d`; the zone plays no part. -/
def Time.Truncate (t : Time) (d : Int) : Time :=
  if d ≤ 0 then t else { t with sec := t.sec - t.sec % d }

/-- The call `t.Format("2006-01-02")`: the wall-clock calendar date. -/
def Time.Format (t : Time) : Int := t.localDay

/-- The cutoff date computed at the start of `RunSettlementJob` from `time.Now()`. -/
def cutoffDate (now : Time) : Int :=
  let weekday := now.Weekday
  let weekday := if weekday = 0 then 7 else weekday
  let daysToSubtract := weekday - 1
  ((now.AddDate (-daysToSubtract)).Truncate (24 * 3600)).Format

/-! ## Settlement job (`settlement.go`) -/

/-- The `WHERE` clause of the aggregation query. -/
def eligible (cutoff : Int) (b : Booking) : Bool :=
  b.Status == "completed" &&
    (b.SettlementStatus == some "PENDING" || b.SettlementStatus == none) &&
    decide (b.Date < cutoff)

/-- One result row of the aggregation query. -/
structure SettlementRow where
  shopID : Int
  bookingIDs : List Int
  minDate : Int
  maxDate : Int
  totalAdminNet : ℚ
  totalBarberNet : ℚ
deriving DecidableEq, Repr

/-- SQL `MIN(date)` over a group (a group is never empty). -/
def minDate : List Int → Int
  | [] => 0
  | d :: ds => ds.foldl min d

/-- SQL `MAX(date)` over a group (a group is never empty). -/
def maxDate : List Int → Int
  | [] => 0
  | d :: ds => ds.foldl max d

/-- The aggregate columns of one `GROUP BY shop_id` group. -/
def aggregate (shop : Int) (grp : List Booking) : SettlementRow :=
  { shopID := shop
    bookingIDs := grp.map (·.ID)
    minDate := minDate (grp.map (·.Date))
    maxDate := maxDate (grp.map (·.Date))
    totalAdminNet :=
      (grp.map fun b => if b.PaymentMethod = "CASH" then b.AdminNetRevenue else 0).sum
    totalBarberNet :=
      (grp.map fun b => if b.PaymentMethod ≠ "CASH" then b.BarberNetRevenue else 0).sum }

/-- The aggregation query of `RunSettlementJob`: eligible bookings grouped by shop. -/
def settlementQuery (cutoff : Int) (bookings : List Booking) : List SettlementRow :=
  let sel := bookings.filter (eligible cutoff)
  (sel.map (·.ShopID)).dedup.map fun shop =>
    aggregate shop (sel.filter fun b => b.ShopID = shop)

/-- Where a `createSettlement` transaction fails, if anywhere. -/
inductive TxFault where
  | none
  | begin
  | insert
  | update
  | commit
deriving DecidableEq, Repr

/-- The `SET settlement_status = 'SETTLED', settlement_id = $1` clause on one row. -/
def Booking.settle (b : Booking) (settlementID : Int) : Booking :=
  { b with SettlementStatus := some "SETTLED", SettlementID := some settlementID }

/-- The `UPDATE bookings SET settlement_status = 'SETTLED', settlement_id = $1
WHERE id = ANY($2)` statement. -/
def markSettled (settlementID : Int) (bookingIDs : List Int) (bs : List Booking) :
    List Booking :=
  bs.map fun b => if b.ID ∈ bookingIDs then b.settle settlementID else b

/-- The function `createSettlement`: returns the error (`none` for `nil`) and the store
as seen afterwards. A rolled-back transaction leaves both tables as they were; the id
sequence keeps the value it handed out. -/
def createSettlement (fault : TxFault) (s : Store) (shopID : Int) (sType : String)
    (amount : ℚ) (status : String) (bookingIDs : List Int) (start stop : Int) :
    Option String × Store :=
  if fault = TxFault.begin then (some "begin", s) else
  if fault = TxFault.insert then (some "insert settlement", s) else
  let settlementID := s.nextSettlementID
  let tx : Store :=
    { s with
      settlements := s.settlements ++
        [{ ID := settlementID, ShopID := shopID, SType := sType, Amount := amount,
           Status := status, Bookings := bookingIDs, DateRangeStart := start,
           DateRangeEnd := stop, Notes := "Auto-generated via Go Cron" }]
      nextSettlementID := s.nextSettlementID + 1 }
  let rolledBack : Store := { s with nextSettlementID := tx.nextSettlementID }
  if fault = TxFault.update then (some "update bookings", rolledBack) else
  let tx : Store := { tx with bookings := markSettled settlementID bookingIDs tx.bookings }
  if fault = TxFault.commit then (some "commit", rolledBack) else
  (Option.none, tx)

/-- The faults met by one run of the job: the query itself, and per shop the `Scan` of
its row and its `createSettlement` transaction. -/
structure JobFaults where
  query : Bool
  scan : Int → Bool
  tx : Int → TxFault

/-- A run in which nothing fails. -/
def JobFaults.none : JobFaults :=
  { query := false, scan := fun _ => false, tx := fun _ => TxFault.none }

/-- Body of the `for rows.Next()` loop once `rows.Scan` has succeeded: the store and
the `count` so far, one row. -/
def processRow (faults : JobFaults) (acc : Store × Nat) (row : SettlementRow) :
    Store × Nat :=
  let netAmount := row.totalBarberNet - row.totalAdminNet
  let settlementType := if netAmount < 0 then "COLLECTION" else "PAYOUT"
  let finalAmount := if netAmount < 0 then -netAmount else netAmount
  let status := if settlementType = "COLLECTION" then "PENDING_COLLECTION" else "PENDING_PAYOUT"
  match createSettlement (faults.tx row.shopID) acc.1 row.shopID settlementType finalAmount
      status row.bookingIDs row.minDate row.maxDate with
  | (some _, s) => (s, acc.2)
  | (Option.none, s) => (s, acc.2 + 1)

/-- The `for rows.Next()` loop over the result rows. The rows come from the pgx pool,
where a failed `rows.Scan` closes the rows: after the `continue` the next `rows.Next()`
is false, so the loop ends at the first row whose scan fails. -/
def settlementLoop (faults : JobFaults) : List SettlementRow → Store × Nat → Store × Nat
  | [], acc => acc
  | row :: rows, acc =>
    if faults.scan row.shopID then acc
    else settlementLoop faults rows (processRow faults acc row)

/-- The job from the query on, for a given cutoff date: the store afterwards and the
count that is logged (`none` when the query fails and the job returns early). -/
def RunSettlementJobAt (faults : JobFaults) (cutoff : Int) (s : Store) :
    Store × Option Nat :=
  if faults.query then (s, Option.none) else
  let r := settlementLoop faults (settlementQuery cutoff s.bookings) (s, 0)
  (r.1, some r.2)

/-- The method `SettlementService.RunSettlementJob`, run at time `now`. -/
def RunSettlementJob (faults : JobFaults) (now : Time) (s : Store) : Store × Option Nat :=
  RunSettlementJobAt faults (cutoffDate now) s

/-! ## Booking creation (`api/booking.go`, `db/booking_repo.go`) -/

/-- The call `fmt.Sprintf("%04d", n)` for `n ≥ 0`: decimal digits, zero-padded to width 4. -/
def sprintf04d (n : Nat) : String :=
  let ds := Nat.toDigits 10 n
  String.mk (List.replicate (4 - ds.length) '0' ++ ds)

/-- Modelled from the spec: the column default of `settlement_id`, declared in
`internal/db/schema.sql`, which is not among the sources; spec 3 has
"`settlementId` (null until settled)". -/
def settlementIDDefault : Option Int := none

/-- The method `BookingRepository.CreateBooking`: the `INSERT INTO bookings (...)
RETURNING id`. Returns the error, the store, and the booking with the returned id.

The two columns the `INSERT` does not list take their column defaults, which the
schema file declares: `settlement_status` gets the parameter `settlementStatusDefault`,
`settlement_id` gets `settlementIDDefault`. -/
def BookingRepository.CreateBooking (insertFails : Bool)
    (settlementStatusDefault : Option String) (s : Store) (b : Booking) :
    Option String × Store × Booking :=
  if insertFails then (some "failed to create booking", s, b) else
  let row : Booking :=
    { b with ID := s.nextBookingID, SettlementStatus := settlementStatusDefault,
             SettlementID := settlementIDDefault }
  (none,
   { s with bookings := s.bookings ++ [row], nextBookingID := s.nextBookingID + 1 },
   { b with ID := s.nextBookingID })

/-- A `POST /api/bookings` request: the decoded JSON body (`none` when decoding fails)
and the user id the auth middleware left in the request context, if any. -/
structure CreateRequest where
  body : Option Booking
  ctxUserID : Option Int
deriving DecidableEq, Repr

/-- The handler `BookingHandler.CreateBooking`. `rnd` is the value drawn from the random
source; `rnd % 10000` stands for `rng.Intn(10000)`. -/
def BookingHandler.CreateBooking (insertFails : Bool)
    (settlementStatusDefault : Option String) (rnd : Nat) (s : Store)
    (req : CreateRequest) : Response × Store :=
  match req.body with
  | none => ({ code := 400, message := "Invalid input", booking := none }, s)
  | some input =>
    let input : Booking :=
      match req.ctxUserID with
      | some userID => { input with UserID := some userID }
      | none => input
    let input : Booking := { input with FinalPrice := input.TotalPrice }
    let input : Booking := { input with AdminCommission := input.TotalPrice * (1 / 10) }
    let input : Booking := { input with AdminNetRevenue := input.AdminCommission }
    let input : Booking :=
      { input with BarberNetRevenue := input.TotalPrice - input.AdminCommission }
    let input : Booking := { input with BookingKey := sprintf04d (rnd % 10000) }
    match BookingRepository.CreateBooking insertFails settlementStatusDefault s input with
    | (some err, s', _) =>
      ({ code := 500, message := "Failed to create booking: " ++ err, booking := none }, s')
    | (none, s', b) => ({ code := 200, message := "", booking := some b }, s')

/-! ## Completion gate (`api/booking.go`, `db/booking_repo.go`) -/

/-- The method `BookingRepository.GetBookingByID`: an error, no row (`nil, nil`), or the
first row with that id. The source loads `id, user_id, shop_id, booking_key, status`;
the embedding hands back the whole row, of which the handler reads `BookingKey`. -/
def BookingRepository.GetBookingByID (queryFails : Bool) (s : Store) (id : Int) :
    Except String (Option Booking) :=
  if queryFails then Except.error "query" else
  Except.ok (s.bookings.find? fun b => b.ID = id)

/-- The method `BookingRepository.UpdateBookingStatus`:
`UPDATE bookings SET status = $1 WHERE id = $2`. -/
def BookingRepository.UpdateBookingStatus (execFails : Bool) (s : Store) (id : Int)
    (status : String) : Option String × Store :=
  if execFails then (some "exec", s) else
  (none,
   { s with bookings := s.bookings.map fun b =>
      if b.ID = id then { b with Status := status } else b })

/-- A `POST /api/bookings/{id}/complete` request: the path id after `strconv.Atoi`
(`none` when it is no integer) and the `bookingKey` of the decoded body (`none` when
the body does not decode). -/
structure CompleteRequest where
  id : Option Int
  bookingKey : Option String
deriving DecidableEq, Repr

/-- The database faults met by one `CompleteBooking` call. -/
structure CompleteFaults where
  get : Bool
  update : Bool
deriving DecidableEq, Repr

/-- The handler `BookingHandler.CompleteBooking`. -/
def BookingHandler.CompleteBooking (faults : CompleteFaults) (s : Store)
    (req : CompleteRequest) : Response × Store :=
  match req.id with
  | none => ({ code := 400, message := "Invalid ID", booking := none }, s)
  | some id =>
    match req.bookingKey with
    | none => ({ code := 400, message := "Invalid input", booking := none }, s)
    | some key =>
      match BookingRepository.GetBookingByID faults.get s id with
      | Except.error _ => ({ code := 500, message := "Database error", booking := none }, s)
      | Except.ok none => ({ code := 404, message := "Booking not found", booking := none }, s)
      | Except.ok (some booking) =>
        if booking.BookingKey ≠ key then
          ({ code := 401, message := "Invalid Booking PIN", booking := none }, s)
        else
          match BookingRepository.UpdateBookingStatus faults.update s id "completed" with
          | (some _, s') =>
            ({ code := 500, message := "Failed to update status", booking := none }, s')
          | (none, s') => ({ code := 200, message := "", booking := none }, s')

/-! ## Definitions used to state and prove the properties -/

/-- The settlement row that `processRow` hands to `createSettlement` for `row`, with
the id the insert returns. -/
def rowSettlement (id : Int) (row : SettlementRow) : Settlement :=
  let netAmount := row.totalBarberNet - row.totalAdminNet
  { ID := id
    ShopID := row.shopID
    SType := if netAmount < 0 then "COLLECTION" else "PAYOUT"
    Amount := if netAmount < 0 then -netAmount else netAmount
    Status := if netAmount < 0 then "PENDING_COLLECTION" else "PENDING_PAYOUT"
    Bookings := row.bookingIDs
    DateRangeStart := row.minDate
    DateRangeEnd := row.maxDate
    Notes := "Auto-generated via Go Cron" }

/-- Neither the scan nor the transaction of the row fails: the row is committed when
the loop reaches it. -/
def committed (faults : JobFaults) (row : SettlementRow) : Bool :=
  !faults.scan row.shopID && decide (faults.tx row.shopID = TxFault.none)

/-- The result rows the loop reaches: those before the first row whose scan fails. -/
def processedRows (faults : JobFaults) (rows : List SettlementRow) : List SettlementRow :=
  rows.takeWhile fun row => !faults.scan row.shopID

/-- The settlements a run has added to the table. -/
def createdBy (before after : Store) : List Settlement :=
  after.settlements.drop before.settlements.length

/-- What a booking can have become after some settlement updates. -/
def settledFrom (b b' : Booking) : Prop :=
  b' = b ∨ ∃ id, b' = b.settle id

/-- The eligible bookings of one shop (spec 4.3): the group the job aggregates for it. -/
def shopGroup (cutoff shop : Int) (bookings : List Booking) : List Booking :=
  bookings.filter fun b => eligible cutoff b && decide (b.ShopID = shop)

/-- Spec 4.4: `owedToShop = Σ barberNetRevenue over bookings where paymentMethod != CASH`. -/
def owedToShop (grp : List Booking) : ℚ :=
  ((grp.filter fun b => b.PaymentMethod ≠ "CASH").map (·.BarberNetRevenue)).sum

/-- Spec 4.4: `owedToPlatform = Σ adminNetRevenue over bookings where paymentMethod == CASH`. -/
def owedToPlatform (grp : List Booking) : ℚ :=
  ((grp.filter fun b => b.PaymentMethod = "CASH").map (·.AdminNetRevenue)).sum

/-- A completed or pending booking with the fields the settlement job reads; the
remaining columns are filled from a price of 100. -/
def sampleBooking (id shop date : Int) (status paymentMethod : String)
    (adminNet barberNet : ℚ) (settlementStatus : Option String)
    (settlementID : Option Int) : Booking :=
  { ID := id, UserID := some 1, ShopID := shop, BarberID := 1, ServiceNames := "[]",
    TotalPrice := 100, TotalDuration := 30, Date := date, StartTime := "10:00",
    EndTime := "10:30", Status := status, BookingType := "online",
    PaymentMethod := paymentMethod, BookingKey := "0417", OriginalPrice := 100,
    DiscountAmount := 0, FinalPrice := 100, AdminCommission := 10,
    AdminNetRevenue := adminNet, BarberNetRevenue := barberNet,
    SettlementStatus := settlementStatus, SettlementID := settlementID }

/-- Spec example: booking A paid in cash with `adminNetRevenue = 10`, booking B paid by
card with `barberNetRevenue = 40`, same shop, both eligible for cutoff 738885. -/
def payoutStore : Store :=
  { bookings :=
      [sampleBooking 1 7 738884 "completed" "CASH" 10 90 (some "PENDING") none,
       sampleBooking 2 7 738880 "completed" "CARD" 4 40 none none]
    settlements := [], nextBookingID := 3, nextSettlementID := 1 }

/-- The settlement the job writes for `payoutStore`: `{type: PAYOUT, amount: 30}`. -/
def payoutSettlement : Settlement :=
  { ID := 1, ShopID := 7, SType := "PAYOUT", Amount := 30, Status := "PENDING_PAYOUT",
    Bookings := [1, 2], DateRangeStart := 738880, DateRangeEnd := 738884,
    Notes := "Auto-generated via Go Cron" }

/-- Spec example: only booking A, paid in cash with `adminNetRevenue = 50`. -/
def collectionStore : Store :=
  { bookings := [sampleBooking 1 7 738884 "completed" "CASH" 50 450 (some "PENDING") none]
    settlements := [], nextBookingID := 2, nextSettlementID := 1 }

/-- A shop whose cash and card bookings cancel out: net `0`. -/
def tieStore : Store :=
  { bookings :=
      [sampleBooking 1 7 738884 "completed" "CASH" 25 225 (some "PENDING") none,
       sampleBooking 2 7 738880 "completed" "UPI" 10 25 none none]
    settlements := [], nextBookingID := 3, nextSettlementID := 1 }

/-- A store in which booking 1 is already settled by settlement 5. -/
def settledStore : Store :=
  { bookings :=
      [sampleBooking 1 7 738880 "completed" "CARD" 10 90 (some "SETTLED") (some 5),
       sampleBooking 2 7 738881 "completed" "CARD" 4 40 (some "PENDING") none]
    settlements :=
      [{ ID := 5, ShopID := 7, SType := "PAYOUT", Amount := 90, Status := "PENDING_PAYOUT",
         Bookings := [1], DateRangeStart := 738880, DateRangeEnd := 738880,
         Notes := "Auto-generated via Go Cron" }]
    nextBookingID := 3, nextSettlementID := 9 }

/-- Bookings around the cutoff Monday 738885: booking 1 on the Sunday before, booking 2
on the Monday itself, booking 3 not completed, booking 4 of another shop with
`settlement_status` unset, booking 5 already settled. -/
def weekStore : Store :=
  { bookings :=
      [sampleBooking 1 7 738884 "completed" "CASH" 10 90 (some "PENDING") none,
       sampleBooking 2 7 738885 "completed" "CARD" 10 90 (some "PENDING") none,
       sampleBooking 3 8 738880 "pending" "CARD" 10 90 (some "PENDING") none,
       sampleBooking 4 9 738881 "completed" "CARD" 10 90 none none,
       sampleBooking 5 9 738875 "completed" "CARD" 10 90 (some "SETTLED") (some 2)]
    settlements :=
      [{ ID := 2, ShopID := 9, SType := "PAYOUT", Amount := 90, Status := "PENDING_PAYOUT",
         Bookings := [5], DateRangeStart := 738875, DateRangeEnd := 738875,
         Notes := "Auto-generated via Go Cron" }]
    nextBookingID := 6, nextSettlementID := 3 }

/-- Monday 2024-01-01 (day 738885) at 02:00 in a zone at UTC+05:30. -/
def mondayEarlyIST : Time := { sec := 738885 * 86400 + 2 * 3600 - 19800, offset := 19800 }

/-- Monday 2024-01-01 (day 738885) at 10:00 in a zone at UTC-05:00. -/
def mondayMorningEST : Time := { sec := 738885 * 86400 + 10 * 3600 + 18000, offset := -18000 }

/-- The rows a call has added to the bookings table. -/
def bookingsAdded (before after : Store) : List Booking :=
  after.bookings.drop before.bookings.length

/-- A creation request whose body carries its own ledger values: total price 250,
claimed commission 1, claimed shares 2 and 3, claimed key "9999". -/
def sampleRequest : CreateRequest :=
  { body := some
      { ID := 0, UserID := none, ShopID := 7, BarberID := 3, ServiceNames := "cut",
        TotalPrice := 250, TotalDuration := 45, Date := 738890, StartTime := "10:00",
        EndTime := "10:45", Status := "pending", BookingType := "online",
        PaymentMethod := "CASH", BookingKey := "9999", OriginalPrice := 250,
        DiscountAmount := 0, FinalPrice := 250, AdminCommission := 1,
        AdminNetRevenue := 2, BarberNetRevenue := 3, SettlementStatus := none,
        SettlementID := none }
    ctxUserID := some 42 }

/-- The row persisted for `sampleRequest` on `payoutStore` with drawn value 417 and
column default PENDING: commission 25, shares 25 and 225, key "0417". -/
def sampleRow : Booking :=
  { ID := 3, UserID := some 42, ShopID := 7, BarberID := 3, ServiceNames := "cut",
    TotalPrice := 250, TotalDuration := 45, Date := 738890, StartTime := "10:00",
    EndTime := "10:45", Status := "pending", BookingType := "online",
    PaymentMethod := "CASH", BookingKey := "0417", OriginalPrice := 250,
    DiscountAmount := 0, FinalPrice := 250, AdminCommission := 25,
    AdminNetRevenue := 25, BarberNetRevenue := 225, SettlementStatus := some "PENDING",
    SettlementID := none }

/-- A store for the completion gate, every booking with key "0417": booking 1 is
cancelled, booking 2 completed, booking 3 pending. -/
def gateStore : Store :=
  { bookings :=
      [sampleBooking 1 7 738890 "cancelled" "CASH" 10 90 (some "PENDING") none,
       sampleBooking 2 7 738890 "completed" "CASH" 10 90 (some "PENDING") none,
       sampleBooking 3 7 738890 "pending" "CASH" 10 90 (some "PENDING") none]
    settlements := [], nextBookingID := 4, nextSettlementID := 1 }

/-- The row the handler `CreateBooking` inserts for a decoded body `input`: the context
user, the computed ledger fields, the drawn key, the next id and the column defaults. -/
def insertedRow (dflt : Option String) (rnd : Nat) (s : Store) (ctxUserID : Option Int)
    (input : Booking) : Booking :=
  { input with
    ID := s.nextBookingID
    UserID := (match ctxUserID with
      | some userID => some userID
      | none => input.UserID)
    FinalPrice := input.TotalPrice
    AdminCommission := input.TotalPrice * (1 / 10)
    AdminNetRevenue := input.TotalPrice * (1 / 10)
    BarberNetRevenue := input.TotalPrice - input.TotalPrice * (1 / 10)
    BookingKey := sprintf04d (rnd % 10000)
    SettlementStatus := dflt
    SettlementID := settlementIDDefault }

/-- A request body for shop 7, dated 738880 and paid by card, with the given total
price, discount and status; its ledger fields are left at 0. -/
def sampleBody (totalPrice discountAmount : ℚ) (status : String) : Booking :=
  { ID := 0, UserID := none, ShopID := 7, BarberID := 3, ServiceNames := "cut",
    TotalPrice := totalPrice, TotalDuration := 45, Date := 738880, StartTime := "10:00",
    EndTime := "10:45", Status := status, BookingType := "online",
    PaymentMethod := "CARD", BookingKey := "", OriginalPrice := totalPrice,
    DiscountAmount := discountAmount, FinalPrice := totalPrice - discountAmount,
    AdminCommission := 0, AdminNetRevenue := 0, BarberNetRevenue := 0,
    SettlementStatus := none, SettlementID := none }

/-- A creation request with a negative total price of -100. -/
def negativeRequest : CreateRequest :=
  { body := some (sampleBody (-100) 0 "pending"), ctxUserID := some 42 }

/-- A creation request with total price 250 and a discount of 50. -/
def discountRequest : CreateRequest :=
  { body := some (sampleBody 250 50 "pending"), ctxUserID := some 42 }

/-- A creation request whose body already carries the status completed. -/
def completedRequest : CreateRequest :=
  { body := some (sampleBody 250 0 "completed"), ctxUserID := some 42 }

/-- Two result rows list no booking id in common. -/
def rowsDisjoint (r₁ r₂ : SettlementRow) : Prop :=
  ∀ id ∈ r₁.bookingIDs, id ∉ r₂.bookingIDs

/-- One operation on the store: a run of the settlement job at some time, a booking
creation request, or a completion request, each with the database faults it meets. -/
inductive Op where
  | run (faults : JobFaults) (now : Time)
  | create (insertFails : Bool) (rnd : Nat) (req : CreateRequest)
  | complete (faults : CompleteFaults) (req : CompleteRequest)

/-- The store after one operation. `settlementStatusDefault` is the column default of
`settlement_status`, which the schema file declares. -/
def Op.apply (settlementStatusDefault : Option String) (s : Store) : Op → Store
  | Op.run faults now => (RunSettlementJob faults now s).1
  | Op.create insertFails rnd req =>
    (BookingHandler.CreateBooking insertFails settlementStatusDefault rnd s req).2
  | Op.complete faults req => (BookingHandler.CompleteBooking faults s req).2

/-- The store after a finite sequence of operations, one after the other. -/
def runOps (settlementStatusDefault : Option String) (s : Store) (ops : List Op) : Store :=
  ops.foldl (Op.apply settlementStatusDefault) s

/-- The two tables fit together: booking ids and settlement ids are unique and below
their sequences, every id listed by a settlement is the id of a booking that is SETTLED
and points to that settlement, and every SETTLED booking is listed by a settlement it
points to. -/
structure Consistent (s : Store) : Prop where
  bookingIDs_nodup : (s.bookings.map (·.ID)).Nodup
  bookingIDs_lt : ∀ b ∈ s.bookings, b.ID < s.nextBookingID
  settlementIDs_nodup : (s.settlements.map (·.ID)).Nodup
  settlementIDs_lt : ∀ st ∈ s.settlements, st.ID < s.nextSettlementID
  listed_settled : ∀ st ∈ s.settlements, ∀ id ∈ st.Bookings, ∃ b ∈ s.bookings,
    b.ID = id ∧ b.SettlementStatus = some "SETTLED" ∧ b.SettlementID = some st.ID
  settled_listed : ∀ b ∈ s.bookings, b.SettlementStatus = some "SETTLED" →
    ∃ st ∈ s.settlements, b.ID ∈ st.Bookings ∧ b.SettlementID = some st.ID

/-- Monday 2024-01-01 (day 738885) at 01:00 UTC. -/
def mondayUTC : Time := { sec := 738885 * 86400 + 3600, offset := 0 }

/-- Monday 2024-01-08 (day 738892) at 01:00 UTC. -/
def nextMondayUTC : Time := { sec := 738892 * 86400 + 3600, offset := 0 }

/-- A history on `payoutStore`: `sampleRequest` creates booking 3 (dated 738890, key
"0417"), the booking is completed with its key, and the job runs on two Mondays. -/
def sampleHistory : List Op :=
  [Op.create false 417 sampleRequest,
   Op.complete { get := false, update := false } { id := some 3, bookingKey := some "0417" },
   Op.run JobFaults.none mondayUTC,
   Op.run JobFaults.none nextMondayUTC]

/-- Spec 3: "`settlementId` is non-null iff `settlementStatus = settled`", for one
booking row. -/
def settlementLinked (b : Booking) : Prop :=
  b.SettlementID ≠ none ↔ b.SettlementStatus = some "SETTLED"

/-- A run in which the scan of the row of shop 7 fails and nothing else fails. -/
def shop7ScanFails : JobFaults :=
  { query := false, scan := fun shop => decide (shop = 7), tx := fun _ => TxFault.none }

/-- The booking ids listed by a list of settlements, in order and with repetitions. -/
def listedBookings (sts : List Settlement) : List Int :=
  sts.flatMap (·.Bookings)

/-- Two runs of the job that overlap, in the interleaving "run A selects, run B selects,
run A writes its rows, run B writes its rows": both queries read the same store, then
the two loops run one after the other. Returns the store and the two counts. -/
def overlappingRuns (faultsA faultsB : JobFaults) (cutoff : Int) (s : Store) :
    Store × Nat × Nat :=
  let rowsA := settlementQuery cutoff s.bookings
  let rowsB := settlementQuery cutoff s.bookings
  let a := settlementLoop faultsA rowsA (s, 0)
  let b := settlementLoop faultsB rowsB (a.1, 0)
  (b.1, a.2, b.2)

/-! ## The job loop -/

theorem processRow_committed (faults : JobFaults) (acc : Store × Nat) (row : SettlementRow)
    (h : committed faults row = true) :
    processRow faults acc row =
      ({ acc.1 with
          bookings := markSettled acc.1.nextSettlementID row.bookingIDs acc.1.bookings
          settlements := acc.1.settlements ++ [rowSettlement acc.1.nextSettlementID row]
          nextSettlementID := acc.1.nextSettlementID + 1 }, acc.2 + 1) := by
  simp only [committed, Bool.and_eq_true, Bool.not_eq_true', decide_eq_true_eq] at h
  obtain ⟨-, h2⟩ := h
  by_cases hn : row.totalBarberNet - row.totalAdminNet < 0 <;>
    simp [processRow, createSettlement, rowSettlement, h2, hn]

theorem processRow_failed (faults : JobFaults) (acc : Store × Nat) (row : SettlementRow)
    (hs : faults.scan row.shopID = false) (h : committed faults row = false) :
    (processRow faults acc row).1.bookings = acc.1.bookings ∧
    (processRow faults acc row).1.settlements = acc.1.settlements ∧
    (processRow faults acc row).1.nextBookingID = acc.1.nextBookingID ∧
    (processRow faults acc row).2 = acc.2 := by
  simp only [committed, hs, Bool.not_false, Bool.true_and, decide_eq_false_iff_not] at h
  cases hf : faults.tx row.shopID <;> simp_all [processRow, createSettlement]

theorem settlementLoop_cons_scan (faults : JobFaults) (row : SettlementRow)
    (rows : List SettlementRow) (acc : Store × Nat) (hs : faults.scan row.shopID = true) :
    settlementLoop faults (row :: rows) acc = acc ∧
      processedRows faults (row :: rows) = [] := by
  simp [settlementLoop, processedRows, hs]

theorem settlementLoop_cons_ok (faults : JobFaults) (row : SettlementRow)
    (rows : List SettlementRow) (acc : Store × Nat) (hs : faults.scan row.shopID = false) :
    settlementLoop faults (row :: rows) acc =
        settlementLoop faults rows (processRow faults acc row) ∧
      processedRows faults (row :: rows) = row :: processedRows faults rows := by
  simp [settlementLoop, processedRows, hs]

/-- The loop reaches only result rows, each with a scan that succeeds. -/
theorem mem_processedRows {faults : JobFaults} {rows : List SettlementRow}
    {row : SettlementRow} (h : row ∈ processedRows faults rows) :
    row ∈ rows ∧ faults.scan row.shopID = false := by
  refine ⟨List.takeWhile_subset _ h, ?_⟩
  have := List.mem_takeWhile_imp h
  simpa using this

/-- When no scan fails the loop reaches every result row. -/
theorem processedRows_eq_self {faults : JobFaults} {rows : List SettlementRow}
    (h : ∀ row ∈ rows, faults.scan row.shopID = false) : processedRows faults rows = rows := by
  unfold processedRows
  rw [List.takeWhile_eq_self_iff]
  intro row hrow
  simp [h row hrow]

theorem scan_ok_of_committed {faults : JobFaults} {row : SettlementRow}
    (h : committed faults row = true) : faults.scan row.shopID = false := by
  simp only [committed, Bool.and_eq_true, Bool.not_eq_true', decide_eq_true_eq] at h
  exact h.1

/-- The settlements table after the loop: the old rows, then one row per committed
result row among those the loop reaches, in order. -/
theorem loop_settlements (faults : JobFaults) (rows : List SettlementRow) :
    ∀ acc : Store × Nat, ∃ news : List Settlement,
      (settlementLoop faults rows acc).1.settlements = acc.1.settlements ++ news ∧
      List.Forall₂ (fun st row => ∃ id, st = rowSettlement id row) news
        ((processedRows faults rows).filter (committed faults)) := by
  induction rows with
  | nil => intro acc; exact ⟨[], by simp [settlementLoop], by simp [processedRows]⟩
  | cons row rows ih =>
    intro acc
    by_cases hs : faults.scan row.shopID = true
    · obtain ⟨hl, hp⟩ := settlementLoop_cons_scan faults row rows acc hs
      rw [hl, hp]
      exact ⟨[], by simp, by simp⟩
    have hs : faults.scan row.shopID = false := by simpa using hs
    obtain ⟨hl, hp⟩ := settlementLoop_cons_ok faults row rows acc hs
    rw [hl, hp]
    obtain ⟨news, h1, h2⟩ := ih (processRow faults acc row)
    by_cases hc : committed faults row = true
    · refine ⟨rowSettlement acc.1.nextSettlementID row :: news, ?_, ?_⟩
      · rw [h1, processRow_committed faults acc row hc]
        simp
      · rw [List.filter_cons_of_pos hc]
        exact List.Forall₂.cons ⟨_, rfl⟩ h2
    · have hc' : committed faults row = false := by simpa using hc
      refine ⟨news, ?_, ?_⟩
      · rw [h1, (processRow_failed faults acc row hs hc').2.1]
      · rw [List.filter_cons_of_neg hc]
        exact h2

/-- The bookings table after the loop: every row went through the same function of
the row, which leaves it alone or marks it settled, and marks it settled when a
committed result row that the loop reaches lists its id. -/
theorem loop_bookings (faults : JobFaults) (rows : List SettlementRow) :
    ∀ acc : Store × Nat, ∃ g : Booking → Booking,
      (settlementLoop faults rows acc).1.bookings = acc.1.bookings.map g ∧
      ∀ b, settledFrom b (g b) ∧
        (b.SettlementStatus = some "SETTLED" → (g b).SettlementStatus = some "SETTLED") ∧
        (∀ row ∈ processedRows faults rows, committed faults row = true →
          b.ID ∈ row.bookingIDs → (g b).SettlementStatus = some "SETTLED") ∧
        ((∀ row ∈ processedRows faults rows, committed faults row = true →
          b.ID ∉ row.bookingIDs) → g b = b) := by
  induction rows with
  | nil =>
    intro acc
    exact ⟨id, by simp [settlementLoop],
      fun b => ⟨Or.inl rfl, fun h => h, by simp [processedRows], fun _ => rfl⟩⟩
  | cons row rows ih =>
    intro acc
    by_cases hs : faults.scan row.shopID = true
    · obtain ⟨hl, hp⟩ := settlementLoop_cons_scan faults row rows acc hs
      rw [hl, hp]
      exact ⟨id, by simp, fun b => ⟨Or.inl rfl, fun h => h, by simp, fun _ => rfl⟩⟩
    have hs : faults.scan row.shopID = false := by simpa using hs
    obtain ⟨hl, hp⟩ := settlementLoop_cons_ok faults row rows acc hs
    rw [hl, hp]
    obtain ⟨g, h1, h2⟩ := ih (processRow faults acc row)
    by_cases hc : committed faults row = true
    · let f : Booking → Booking := fun b =>
        if b.ID ∈ row.bookingIDs then b.settle acc.1.nextSettlementID else b
      have hfid : ∀ b, (f b).ID = b.ID := by
        intro b; simp only [f]; split <;> rfl
      refine ⟨g ∘ f, ?_, ?_⟩
      · rw [h1, processRow_committed faults acc row hc]
        simp [markSettled, f, Function.comp_def]
      · intro b
        obtain ⟨ha, hb, hd, he⟩ := h2 (f b)
        refine ⟨?_, ?_, ?_, ?_⟩
        · simp only [Function.comp_apply]
          by_cases hm : b.ID ∈ row.bookingIDs
          · have hf : f b = b.settle acc.1.nextSettlementID := by simp [f, hm]
            rcases ha with ha | ⟨i, ha⟩
            · exact Or.inr ⟨_, by rw [ha, hf]⟩
            · exact Or.inr ⟨i, by rw [ha, hf]; rfl⟩
          · have hf : f b = b := by simp [f, hm]
            rw [hf] at ha ⊢
            exact ha
        · intro hs
          apply hb
          simp only [f]; split
          · rfl
          · exact hs
        · intro r hr hcr hmem
          rcases List.mem_cons.mp hr with rfl | hr
          · apply hb
            simp [f, hmem, Booking.settle]
          · exact hd r hr hcr (by rw [hfid]; exact hmem)
        · intro hall
          have hm : b.ID ∉ row.bookingIDs := hall row (List.mem_cons_self _ _) hc
          have hf : f b = b := by simp [f, hm]
          simp only [Function.comp_apply, hf]
          rw [hf] at he
          exact he fun r hr hcr => hall r (List.mem_cons_of_mem _ hr) hcr
    · have hc' : committed faults row = false := by simpa using hc
      refine ⟨g, ?_, ?_⟩
      · rw [h1, (processRow_failed faults acc row hs hc').1]
      · intro b
        obtain ⟨ha, hb, hd, he⟩ := h2 b
        refine ⟨ha, hb, ?_, ?_⟩
        · intro r hr hcr hmem
          rcases List.mem_cons.mp hr with rfl | hr
          · exact absurd hcr hc
          · exact hd r hr hcr hmem
        · intro hall
          exact he fun r hr hcr => hall r (List.mem_cons_of_mem _ hr) hcr

theorem forall₂_mem_left {α β : Type} {R : α → β → Prop} {l₁ : List α} {l₂ : List β}
    (h : List.Forall₂ R l₁ l₂) {a : α} (ha : a ∈ l₁) : ∃ b ∈ l₂, R a b := by
  induction h with
  | nil => cases ha
  | cons hab _ ih =>
    rcases List.mem_cons.mp ha with rfl | ha
    · exact ⟨_, List.mem_cons_self _ _, hab⟩
    · obtain ⟨b, hb, hr⟩ := ih ha
      exact ⟨b, List.mem_cons_of_mem _ hb, hr⟩

theorem forall₂_mem_right {α β : Type} {R : α → β → Prop} {l₁ : List α} {l₂ : List β}
    (h : List.Forall₂ R l₁ l₂) {b : β} (hb : b ∈ l₂) : ∃ a ∈ l₁, R a b := by
  induction h with
  | nil => cases hb
  | cons hab _ ih =>
    rcases List.mem_cons.mp hb with rfl | hb
    · exact ⟨_, List.mem_cons_self _ _, hab⟩
    · obtain ⟨a, ha, hr⟩ := ih hb
      exact ⟨a, List.mem_cons_of_mem _ ha, hr⟩

theorem sum_map_ite_eq_sum_filter (p : Booking → Prop) [DecidablePred p] (v : Booking → ℚ)
    (l : List Booking) :
    (l.map fun b => if p b then v b else 0).sum = ((l.filter fun b => p b).map v).sum := by
  induction l with
  | nil => simp
  | cons b l ih =>
    by_cases hp : p b <;> simp [List.filter_cons, hp, ih]

theorem shopGroup_eq (cutoff shop : Int) (bookings : List Booking) :
    (bookings.filter (eligible cutoff)).filter (fun b => b.ShopID = shop) =
      shopGroup cutoff shop bookings := by
  simp [shopGroup, List.filter_filter, Bool.and_comm]

theorem mem_settlementQuery {cutoff : Int} {bookings : List Booking} {row : SettlementRow}
    (h : row ∈ settlementQuery cutoff bookings) :
    row = aggregate row.shopID (shopGroup cutoff row.shopID bookings) ∧
      ∃ b ∈ bookings, eligible cutoff b = true ∧ b.ShopID = row.shopID := by
  simp only [settlementQuery, List.mem_map, List.mem_dedup, List.mem_filter] at h
  obtain ⟨shop, ⟨b, ⟨hb, he⟩, hs⟩, rfl⟩ := h
  refine ⟨?_, b, hb, he, ?_⟩
  · rw [shopGroup_eq]; rfl
  · simpa [aggregate] using hs

/-- The new rows of the settlements table are the rows of the committed groups among
those the loop reaches. -/
theorem createdBy_run (faults : JobFaults) (cutoff : Int) (s : Store) :
    List.Forall₂ (fun st row => ∃ id, st = rowSettlement id row)
      (createdBy s (RunSettlementJobAt faults cutoff s).1)
      (if faults.query then []
        else (processedRows faults (settlementQuery cutoff s.bookings)).filter
          (committed faults)) := by
  unfold RunSettlementJobAt createdBy
  by_cases hq : faults.query = true
  · simp [hq]
  · obtain ⟨news, h1, h2⟩ :=
      loop_settlements faults (settlementQuery cutoff s.bookings) (s, 0)
    simp only [hq, Bool.false_eq_true, if_false]
    rw [h1]
    simpa using h2

/-- C1. Every settlement written by a run of the job carries, for its shop's group of
eligible bookings, the amount `|owedToShop - owedToPlatform|` (so a non-negative
amount), the type PAYOUT exactly when `owedToShop - owedToPlatform ≥ 0` and the type
COLLECTION otherwise; a net of `0` gives a PAYOUT of amount `0`. -/
theorem settlement_amount_and_type (faults : JobFaults) (cutoff : Int) (s : Store)
    (st : Settlement)
    (hst : st ∈ createdBy s (RunSettlementJobAt faults cutoff s).1) :
    st.Amount = |owedToShop (shopGroup cutoff st.ShopID s.bookings) -
        owedToPlatform (shopGroup cutoff st.ShopID s.bookings)| ∧
    0 ≤ st.Amount ∧
    (st.SType = "PAYOUT" ↔
      0 ≤ owedToShop (shopGroup cutoff st.ShopID s.bookings) -
        owedToPlatform (shopGroup cutoff st.ShopID s.bookings)) ∧
    (st.SType = "COLLECTION" ↔
      owedToShop (shopGroup cutoff st.ShopID s.bookings) -
        owedToPlatform (shopGroup cutoff st.ShopID s.bookings) < 0) ∧
    (owedToShop (shopGroup cutoff st.ShopID s.bookings) -
        owedToPlatform (shopGroup cutoff st.ShopID s.bookings) = 0 →
      st.SType = "PAYOUT" ∧ st.Amount = 0) := by
  obtain ⟨row, hrow, id, rfl⟩ := forall₂_mem_left (createdBy_run faults cutoff s) hst
  have hrow' : row ∈ settlementQuery cutoff s.bookings := by
    by_cases hq : faults.query = true
    · simp [hq] at hrow
    · simp only [hq, Bool.false_eq_true, if_false] at hrow
      exact (mem_processedRows (List.mem_filter.mp hrow).1).1
  obtain ⟨hagg, -⟩ := mem_settlementQuery hrow'
  have hB : row.totalBarberNet = owedToShop (shopGroup cutoff row.shopID s.bookings) := by
    rw [hagg]
    simp only [aggregate, owedToShop]
    exact sum_map_ite_eq_sum_filter (fun b => b.PaymentMethod ≠ "CASH") _ _
  have hA : row.totalAdminNet = owedToPlatform (shopGroup cutoff row.shopID s.bookings) := by
    rw [hagg]
    simp only [aggregate, owedToPlatform]
    exact sum_map_ite_eq_sum_filter (fun b => b.PaymentMethod = "CASH") _ _
  simp only [rowSettlement]
  rw [← hB, ← hA]
  by_cases hn : row.totalBarberNet - row.totalAdminNet < 0
  · simp only [hn, if_true]
    refine ⟨(abs_of_neg hn).symm, by linarith, ?_, ?_, ?_⟩
    · constructor
      · intro h; exact absurd h (by decide)
      · intro h; linarith
    · simp
    · intro h; linarith
  · simp only [hn, if_false]
    have hn' : 0 ≤ row.totalBarberNet - row.totalAdminNet := not_lt.mp hn
    refine ⟨(abs_of_nonneg hn').symm, hn', ?_, ?_, ?_⟩
    · simp [hn']
    · constructor
      · intro h; exact absurd h (by decide)
      · intro h; exact h.elim
    · intro h; exact ⟨trivial, h⟩

/-- Witness of C1 on the examples of the spec: `{A cash adminNet 10, B card barberNet 40}`
gives PAYOUT 30, `{A cash adminNet 50}` gives COLLECTION 50, a net of `0` gives
PAYOUT 0. -/
theorem settlement_amount_and_type_witness :
    (RunSettlementJobAt JobFaults.none 738885 payoutStore).1.settlements =
      [payoutSettlement] ∧
    (RunSettlementJobAt JobFaults.none 738885 collectionStore).1.settlements =
      [{ ID := 1, ShopID := 7, SType := "COLLECTION", Amount := 50,
         Status := "PENDING_COLLECTION", Bookings := [1], DateRangeStart := 738884,
         DateRangeEnd := 738884, Notes := "Auto-generated via Go Cron" }] ∧
    (RunSettlementJobAt JobFaults.none 738885 tieStore).1.settlements =
      [{ ID := 1, ShopID := 7, SType := "PAYOUT", Amount := 0, Status := "PENDING_PAYOUT",
         Bookings := [1, 2], DateRangeStart := 738880, DateRangeEnd := 738884,
         Notes := "Auto-generated via Go Cron" }] ∧
    payoutSettlement ∈
      createdBy payoutStore (RunSettlementJobAt JobFaults.none 738885 payoutStore).1 ∧
    (payoutSettlement.Amount =
        |owedToShop (shopGroup 738885 payoutSettlement.ShopID payoutStore.bookings) -
          owedToPlatform (shopGroup 738885 payoutSettlement.ShopID payoutStore.bookings)| ∧
      0 ≤ payoutSettlement.Amount ∧
      (payoutSettlement.SType = "PAYOUT" ↔
        0 ≤ owedToShop (shopGroup 738885 payoutSettlement.ShopID payoutStore.bookings) -
          owedToPlatform (shopGroup 738885 payoutSettlement.ShopID payoutStore.bookings)) ∧
      (payoutSettlement.SType = "COLLECTION" ↔
        owedToShop (shopGroup 738885 payoutSettlement.ShopID payoutStore.bookings) -
          owedToPlatform (shopGroup 738885 payoutSettlement.ShopID payoutStore.bookings) < 0) ∧
      (owedToShop (shopGroup 738885 payoutSettlement.ShopID payoutStore.bookings) -
          owedToPlatform (shopGroup 738885 payoutSettlement.ShopID payoutStore.bookings) = 0 →
        payoutSettlement.SType = "PAYOUT" ∧ payoutSettlement.Amount = 0)) :=
  ⟨by decide!, by decide!, by decide!, by decide!,
    settlement_amount_and_type JobFaults.none 738885 payoutStore payoutSettlement
      (by decide!)⟩

/-! ## The settlement writer -/

/-- C2, counterexample. Booking 1 of `settledStore` is settled with `settlementId = 5`.
A `createSettlement` call whose list holds its id re-points it to the new settlement 9:
the update is not guarded, and afterwards settlements 5 and 9 both list booking 1. -/
theorem createSettlement_overwrites_settled :
    settledStore.bookings.map (fun b => (b.ID, b.SettlementStatus, b.SettlementID)) =
      [(1, some "SETTLED", some 5), (2, some "PENDING", none)] ∧
    (createSettlement TxFault.none settledStore 7 "PAYOUT" 130 "PENDING_PAYOUT" [1, 2]
        738880 738881).1 = none ∧
    (createSettlement TxFault.none settledStore 7 "PAYOUT" 130 "PENDING_PAYOUT" [1, 2]
        738880 738881).2.bookings.map (fun b => (b.ID, b.SettlementStatus, b.SettlementID)) =
      [(1, some "SETTLED", some 9), (2, some "SETTLED", some 9)] ∧
    (createSettlement TxFault.none settledStore 7 "PAYOUT" 130 "PENDING_PAYOUT" [1, 2]
        738880 738881).2.settlements.map (fun st => (st.ID, st.Bookings)) =
      [(5, [1]), (9, [1, 2])] ∧
    ¬ (∀ b ∈ settledStore.bookings, b.SettlementStatus = some "SETTLED" →
        ∀ b' ∈ (createSettlement TxFault.none settledStore 7 "PAYOUT" 130 "PENDING_PAYOUT"
            [1, 2] 738880 738881).2.bookings,
          b'.ID = b.ID → b'.SettlementID = b.SettlementID) := by
  decide!

/-- C2, as amended. The booking update of `createSettlement` does not look at
`settlementStatus`: when `createSettlement` returns without error, the bookings table
keeps its rows in place, every row whose id is in the list passed has
`settlementStatus = SETTLED` and `settlementId` = the id of the settlement just
inserted (whatever they were before) with all other columns as before, and every row
whose id is not in the list is unchanged. -/
theorem createSettlement_update_unguarded (fault : TxFault) (s : Store) (shopID : Int)
    (sType : String) (amount : ℚ) (status : String) (bookingIDs : List Int)
    (start stop : Int)
    (hok : (createSettlement fault s shopID sType amount status bookingIDs start stop).1
      = none) :
    (createSettlement fault s shopID sType amount status bookingIDs start stop).2.settlements
      = s.settlements ++
        [{ ID := s.nextSettlementID, ShopID := shopID, SType := sType, Amount := amount,
           Status := status, Bookings := bookingIDs, DateRangeStart := start,
           DateRangeEnd := stop, Notes := "Auto-generated via Go Cron" }] ∧
    ∀ (i : Nat) (b : Booking), s.bookings[i]? = some b →
      (createSettlement fault s shopID sType amount status bookingIDs start
          stop).2.bookings[i]? =
        some (if b.ID ∈ bookingIDs then
          { b with SettlementStatus := some "SETTLED",
                   SettlementID := some s.nextSettlementID }
          else b) := by
  cases fault <;> simp [createSettlement] at hok ⊢
  intro i b hb
  simp [markSettled, hb, Booking.settle]

/-- Witness of the amended C2 on `settledStore`. -/
theorem createSettlement_update_unguarded_witness :
    (createSettlement TxFault.none settledStore 7 "PAYOUT" 130 "PENDING_PAYOUT" [1, 2]
        738880 738881).1 = none ∧
    (createSettlement TxFault.none settledStore 7 "PAYOUT" 130 "PENDING_PAYOUT" [1, 2]
        738880 738881).2.bookings[0]? =
      some (sampleBooking 1 7 738880 "completed" "CARD" 10 90 (some "SETTLED") (some 9)) :=
  ⟨by decide!,
    ((createSettlement_update_unguarded TxFault.none settledStore 7 "PAYOUT" 130
      "PENDING_PAYOUT" [1, 2] 738880 738881 (by decide!)).2 0
      (sampleBooking 1 7 738880 "completed" "CARD" 10 90 (some "SETTLED") (some 5))
      (by decide!)).trans (by decide!)⟩

/-- C10. If any step of `createSettlement` fails (begin, insert, update or commit),
it returns an error and both tables are as before: no settlement row is added, every
booking row is unchanged, and the bookings eligible for a later run (for any cutoff)
are the same. -/
theorem createSettlement_atomic (fault : TxFault) (s : Store) (shopID : Int)
    (sType : String) (amount : ℚ) (status : String) (bookingIDs : List Int)
    (start stop : Int) (hfail : fault ≠ TxFault.none) :
    (createSettlement fault s shopID sType amount status bookingIDs start stop).1 ≠ none ∧
    (createSettlement fault s shopID sType amount status bookingIDs start
      stop).2.settlements = s.settlements ∧
    (createSettlement fault s shopID sType amount status bookingIDs start
      stop).2.bookings = s.bookings ∧
    ∀ cutoff : Int,
      settlementQuery cutoff (createSettlement fault s shopID sType amount status bookingIDs
        start stop).2.bookings = settlementQuery cutoff s.bookings := by
  cases fault <;> simp [createSettlement] at hfail ⊢

/-- Witness of C10: a commit failure on `payoutStore`. -/
theorem createSettlement_atomic_witness :
    TxFault.commit ≠ TxFault.none ∧
    ((createSettlement TxFault.commit payoutStore 7 "PAYOUT" 30 "PENDING_PAYOUT" [1, 2]
        738880 738884).1 ≠ none ∧
      (createSettlement TxFault.commit payoutStore 7 "PAYOUT" 30 "PENDING_PAYOUT" [1, 2]
        738880 738884).2.settlements = payoutStore.settlements ∧
      (createSettlement TxFault.commit payoutStore 7 "PAYOUT" 30 "PENDING_PAYOUT" [1, 2]
        738880 738884).2.bookings = payoutStore.bookings ∧
      ∀ cutoff : Int,
        settlementQuery cutoff (createSettlement TxFault.commit payoutStore 7 "PAYOUT" 30
          "PENDING_PAYOUT" [1, 2] 738880 738884).2.bookings =
          settlementQuery cutoff payoutStore.bookings) :=
  ⟨by decide, createSettlement_atomic TxFault.commit payoutStore 7 "PAYOUT" 30
    "PENDING_PAYOUT" [1, 2] 738880 738884 (by decide)⟩

/-! ## One run of the job -/

theorem eligible_settle (cutoff : Int) (b : Booking) (id : Int) :
    eligible cutoff (b.settle id) = false := by
  simp [eligible, Booking.settle]

theorem eligible_of_settledFrom {cutoff : Int} {b b' : Booking} (h : settledFrom b b')
    (hb : eligible cutoff b = false) : eligible cutoff b' = false := by
  rcases h with rfl | ⟨id, rfl⟩
  · exact hb
  · exact eligible_settle cutoff b id

theorem eligible_false_of_settled {cutoff : Int} {b : Booking}
    (h : b.SettlementStatus = some "SETTLED") : eligible cutoff b = false := by
  simp [eligible, h]

/-- Every eligible booking is listed in the result row of its shop. -/
theorem eligible_mem_row {cutoff : Int} {bookings : List Booking} {b : Booking}
    (hb : b ∈ bookings) (he : eligible cutoff b = true) :
    ∃ row ∈ settlementQuery cutoff bookings, row.shopID = b.ShopID ∧ b.ID ∈ row.bookingIDs := by
  refine ⟨aggregate b.ShopID ((bookings.filter (eligible cutoff)).filter
    fun x => x.ShopID = b.ShopID), ?_, rfl, ?_⟩
  · simp only [settlementQuery, List.mem_map, List.mem_dedup, List.mem_filter]
    exact ⟨b.ShopID, ⟨b, ⟨hb, he⟩, rfl⟩, rfl⟩
  · simp only [aggregate, List.mem_map, List.mem_filter]
    exact ⟨b, ⟨⟨hb, he⟩, by simp⟩, rfl⟩

theorem settlementQuery_eq_nil {cutoff : Int} {bookings : List Booking}
    (h : ∀ b ∈ bookings, eligible cutoff b = false) : settlementQuery cutoff bookings = [] := by
  have hf : bookings.filter (eligible cutoff) = [] := by
    rw [List.filter_eq_nil_iff]
    intro b hb
    simp [h b hb]
  simp [settlementQuery, hf]

/-- After a run in which every group commits, no booking is eligible any more. -/
theorem run_leaves_none_eligible (faults : JobFaults) (cutoff : Int) (s : Store)
    (hq : faults.query = false)
    (hc : ∀ row ∈ settlementQuery cutoff s.bookings, committed faults row = true) :
    ∀ b ∈ (RunSettlementJobAt faults cutoff s).1.bookings, eligible cutoff b = false := by
  obtain ⟨g, hg, hprop⟩ := loop_bookings faults (settlementQuery cutoff s.bookings) (s, 0)
  rw [processedRows_eq_self fun row hrow => scan_ok_of_committed (hc row hrow)] at hprop
  simp only [RunSettlementJobAt, hq, Bool.false_eq_true, if_false]
  rw [hg]
  intro b' hb'
  obtain ⟨b, hb, rfl⟩ := List.mem_map.mp hb'
  obtain ⟨hsf, -, hrow, -⟩ := hprop b
  by_cases he : eligible cutoff b = true
  · obtain ⟨row, hr, -, hmem⟩ := eligible_mem_row hb he
    exact eligible_false_of_settled (hrow row hr (hc row hr) hmem)
  · exact eligible_of_settledFrom hsf (by simpa using he)

/-- C3. Idempotence of the run: after a run in which the query and every per-shop write
succeed, a second run with the same cutoff on the resulting store (no new completed
bookings) selects no eligible booking and no group, leaves the store exactly as it is,
adds no settlement, and logs a count of `0` (nothing at all if its query fails). -/
theorem run_idempotent (faults faults2 : JobFaults) (cutoff : Int) (s : Store)
    (hq : faults.query = false)
    (hc : ∀ row ∈ settlementQuery cutoff s.bookings, committed faults row = true) :
    (RunSettlementJobAt faults cutoff s).1.bookings.filter (eligible cutoff) = [] ∧
    settlementQuery cutoff (RunSettlementJobAt faults cutoff s).1.bookings = [] ∧
    (RunSettlementJobAt faults2 cutoff (RunSettlementJobAt faults cutoff s).1).1 =
      (RunSettlementJobAt faults cutoff s).1 ∧
    createdBy (RunSettlementJobAt faults cutoff s).1
      (RunSettlementJobAt faults2 cutoff (RunSettlementJobAt faults cutoff s).1).1 = [] ∧
    (RunSettlementJobAt faults2 cutoff (RunSettlementJobAt faults cutoff s).1).2 =
      if faults2.query then none else some 0 := by
  have hne := run_leaves_none_eligible faults cutoff s hq hc
  have hnil := settlementQuery_eq_nil hne
  have hrun : (RunSettlementJobAt faults2 cutoff (RunSettlementJobAt faults cutoff s).1) =
      ((RunSettlementJobAt faults cutoff s).1, if faults2.query then none else some 0) := by
    generalize (RunSettlementJobAt faults cutoff s).1 = s1 at hnil ⊢
    by_cases hq2 : faults2.query = true
    · simp [RunSettlementJobAt, hq2]
    · simp [RunSettlementJobAt, hq2, hnil, settlementLoop]
  refine ⟨?_, hnil, ?_, ?_, ?_⟩
  · rw [List.filter_eq_nil_iff]
    intro b hb
    simp [hne b hb]
  · rw [hrun]
  · rw [hrun]; simp [createdBy]
  · rw [hrun]

/-- Witness of C3: a run on `payoutStore` in which nothing fails, then a second run. -/
theorem run_idempotent_witness :
    (RunSettlementJobAt JobFaults.none 738885 payoutStore).2 = some 1 ∧
    (RunSettlementJobAt JobFaults.none 738885
      (RunSettlementJobAt JobFaults.none 738885 payoutStore).1).1 =
      (RunSettlementJobAt JobFaults.none 738885 payoutStore).1 :=
  ⟨by decide!,
    (run_idempotent JobFaults.none JobFaults.none 738885 payoutStore rfl
      (by decide!)).2.2.1⟩

theorem eligible_iff (cutoff : Int) (b : Booking) :
    eligible cutoff b = true ↔
      b.Status = "completed" ∧
      (b.SettlementStatus = some "PENDING" ∨ b.SettlementStatus = none) ∧
      b.Date < cutoff := by
  simp [eligible, and_assoc]

theorem mem_shopGroup {cutoff shop : Int} {bookings : List Booking} {b : Booking} :
    b ∈ shopGroup cutoff shop bookings ↔
      b ∈ bookings ∧ eligible cutoff b = true ∧ b.ShopID = shop := by
  simp [shopGroup, List.mem_filter]

theorem created_shops_eq {news : List Settlement} {rows : List SettlementRow}
    (h : List.Forall₂ (fun st row => ∃ id, st = rowSettlement id row) news rows) :
    news.map (·.ShopID) = rows.map (·.shopID) := by
  induction h with
  | nil => rfl
  | cons hab _ ih =>
    obtain ⟨id, rfl⟩ := hab
    simp only [List.map_cons, ih]
    rfl

theorem settlementQuery_shops (cutoff : Int) (bookings : List Booking) :
    (settlementQuery cutoff bookings).map (·.shopID) =
      ((bookings.filter (eligible cutoff)).map (·.ShopID)).dedup := by
  simp only [settlementQuery, List.map_map]
  conv_rhs => rw [← List.map_id (List.dedup _)]
  apply List.map_congr_left
  intro shop _
  rfl

/-- The new settlements of a run in which every group commits, one per result row. -/
theorem createdBy_run_all (faults : JobFaults) (cutoff : Int) (s : Store)
    (hq : faults.query = false)
    (hc : ∀ row ∈ settlementQuery cutoff s.bookings, committed faults row = true) :
    List.Forall₂ (fun st row => ∃ id, st = rowSettlement id row)
      (createdBy s (RunSettlementJobAt faults cutoff s).1)
      (settlementQuery cutoff s.bookings) := by
  have h := createdBy_run faults cutoff s
  simp only [hq, Bool.false_eq_true, if_false] at h
  rwa [processedRows_eq_self fun row hrow => scan_ok_of_committed (hc row hrow),
    List.filter_eq_self.mpr hc] at h

/-- C4. The settlements created by one run in which nothing fails are the grouping by
shop of the eligible set (bookings ids being unique): the id of a booking is in the
list of a created settlement exactly when the booking is completed, has settlement
status PENDING or unset, is dated strictly before the cutoff, and the settlement is the
one of its shop; every such booking is in the settlement of its shop; a shop with an
eligible booking gets one settlement and any other shop none. A booking dated on the
cutoff day is not eligible; a completed pending one dated the day before is. -/
theorem run_groups_eligible_by_shop (faults : JobFaults) (cutoff : Int) (s : Store)
    (hq : faults.query = false)
    (hc : ∀ row ∈ settlementQuery cutoff s.bookings, committed faults row = true)
    (hid : (s.bookings.map (·.ID)).Nodup) :
    (∀ b ∈ s.bookings, ∀ st ∈ createdBy s (RunSettlementJobAt faults cutoff s).1,
      (b.ID ∈ st.Bookings ↔
        (b.Status = "completed" ∧
          (b.SettlementStatus = some "PENDING" ∨ b.SettlementStatus = none) ∧
          b.Date < cutoff) ∧ st.ShopID = b.ShopID)) ∧
    (∀ b ∈ s.bookings,
      b.Status = "completed" →
      (b.SettlementStatus = some "PENDING" ∨ b.SettlementStatus = none) →
      b.Date < cutoff →
      ∃ st ∈ createdBy s (RunSettlementJobAt faults cutoff s).1,
        st.ShopID = b.ShopID ∧ b.ID ∈ st.Bookings) ∧
    (∀ shop : Int,
      ((∃ b ∈ s.bookings, b.ShopID = shop ∧ b.Status = "completed" ∧
          (b.SettlementStatus = some "PENDING" ∨ b.SettlementStatus = none) ∧
          b.Date < cutoff) →
        (createdBy s (RunSettlementJobAt faults cutoff s).1).countP
          (fun st => st.ShopID = shop) = 1) ∧
      ((¬ ∃ b ∈ s.bookings, b.ShopID = shop ∧ b.Status = "completed" ∧
          (b.SettlementStatus = some "PENDING" ∨ b.SettlementStatus = none) ∧
          b.Date < cutoff) →
        (createdBy s (RunSettlementJobAt faults cutoff s).1).countP
          (fun st => st.ShopID = shop) = 0)) ∧
    (∀ b : Booking, b.Date = cutoff → eligible cutoff b = false) ∧
    (∀ b : Booking, b.Status = "completed" →
      (b.SettlementStatus = some "PENDING" ∨ b.SettlementStatus = none) →
      b.Date = cutoff - 1 → eligible cutoff b = true) := by
  have hall := createdBy_run_all faults cutoff s hq hc
  have hshops := (created_shops_eq hall).trans (settlementQuery_shops cutoff s.bookings)
  refine ⟨?_, ?_, ?_, ?_, ?_⟩
  · intro b hb st hst
    obtain ⟨row, hrow, id, rfl⟩ := forall₂_mem_left hall hst
    obtain ⟨hagg, -⟩ := mem_settlementQuery hrow
    rw [← eligible_iff]
    have hB : (rowSettlement id row).Bookings =
        (shopGroup cutoff row.shopID s.bookings).map (·.ID) := by
      show row.bookingIDs = _
      rw [hagg]; rfl
    have hS : (rowSettlement id row).ShopID = row.shopID := rfl
    rw [hB, hS, List.mem_map]
    constructor
    · rintro ⟨b', hb', hid'⟩
      obtain ⟨hb'm, he, hs⟩ := mem_shopGroup.mp hb'
      have : b' = b := List.inj_on_of_nodup_map hid hb'm hb hid'
      subst this
      exact ⟨he, hs.symm⟩
    · rintro ⟨he, hs⟩
      exact ⟨b, mem_shopGroup.mpr ⟨hb, he, hs.symm⟩, rfl⟩
  · intro b hb h1 h2 h3
    have he : eligible cutoff b = true := (eligible_iff cutoff b).mpr ⟨h1, h2, h3⟩
    obtain ⟨row, hrow, hs, hmem⟩ := eligible_mem_row hb he
    obtain ⟨st, hst, id, rfl⟩ := forall₂_mem_right hall hrow
    exact ⟨_, hst, hs, hmem⟩
  · intro shop
    have hcount : (createdBy s (RunSettlementJobAt faults cutoff s).1).countP
        (fun st => st.ShopID = shop) =
        (((s.bookings.filter (eligible cutoff)).map (·.ShopID)).dedup).count shop := by
      rw [← hshops, List.count, List.countP_map]
      apply List.countP_congr
      intro st _
      simp
    rw [hcount]
    constructor
    · rintro ⟨b, hb, hs, h1, h2, h3⟩
      have he : eligible cutoff b = true := (eligible_iff cutoff b).mpr ⟨h1, h2, h3⟩
      apply List.count_eq_one_of_mem (List.nodup_dedup _)
      rw [List.mem_dedup, List.mem_map]
      exact ⟨b, List.mem_filter.mpr ⟨hb, he⟩, hs⟩
    · intro hno
      apply List.count_eq_zero_of_not_mem
      rw [List.mem_dedup, List.mem_map]
      rintro ⟨b, hb, hs⟩
      obtain ⟨hb, he⟩ := List.mem_filter.mp hb
      obtain ⟨h1, h2, h3⟩ := (eligible_iff cutoff b).mp he
      exact hno ⟨b, hb, hs, h1, h2, h3⟩
  · intro b hd
    simp [eligible, hd]
  · intro b h1 h2 hd
    apply (eligible_iff cutoff b).mpr
    exact ⟨h1, h2, by omega⟩

/-- Witness of C4 on `weekStore` with the cutoff Monday 738885: shop 7 gets one
settlement listing booking 1 (dated the Sunday before) and not booking 2 (dated on the
cutoff), shop 9 one listing booking 4, shop 8 none. -/
theorem run_groups_eligible_by_shop_witness :
    (createdBy weekStore (RunSettlementJobAt JobFaults.none 738885 weekStore).1).map
        (fun st => (st.ShopID, st.Bookings)) = [(7, [1]), (9, [4])] ∧
    (createdBy weekStore (RunSettlementJobAt JobFaults.none 738885 weekStore).1).countP
        (fun st => st.ShopID = 7) = 1 ∧
    (createdBy weekStore (RunSettlementJobAt JobFaults.none 738885 weekStore).1).countP
        (fun st => st.ShopID = 8) = 0 :=
  ⟨by decide!,
    ((run_groups_eligible_by_shop JobFaults.none 738885 weekStore rfl (by decide!)
      (by decide!)).2.2.1 7).1
      ⟨sampleBooking 1 7 738884 "completed" "CASH" 10 90 (some "PENDING") none,
        by decide!, by decide!⟩,
    ((run_groups_eligible_by_shop JobFaults.none 738885 weekStore rfl (by decide!)
      (by decide!)).2.2.1 8).2 (by decide!)⟩

/-! ## The cutoff date -/

/-- With the clock in UTC the cutoff is the Monday that starts the week of the run: it
falls on a Monday, is not after the day of the run and is fewer than 7 days before. -/
theorem cutoffDate_utc (sec : Int) :
    dayWeekday (cutoffDate { sec := sec, offset := 0 }) = 1 ∧
    cutoffDate { sec := sec, offset := 0 } ≤ Time.localDay { sec := sec, offset := 0 } ∧
    Time.localDay { sec := sec, offset := 0 } - cutoffDate { sec := sec, offset := 0 } < 7 := by
  simp only [cutoffDate, Time.Weekday, Time.AddDate, Time.Truncate, Time.Format, Time.localDay,
    dayWeekday]
  norm_num
  split_ifs <;> omega

/-- C5, the code at two invocation times that break it. On Monday 2024-01-01 at 02:00
in a zone at UTC+05:30, and at 10:00 in a zone at UTC-05:00, the run is on a Monday
(day 738885), yet the cutoff computed is day 738884, a Sunday: `Truncate(24 * time.Hour)`
rounds to midnight UTC, which is still the previous day on the wall clock of the zone. -/
theorem cutoffDate_sunday_outside_utc :
    (mondayEarlyIST.localDay = 738885 ∧ mondayEarlyIST.Weekday = 1 ∧
      cutoffDate mondayEarlyIST = 738884 ∧ dayWeekday (cutoffDate mondayEarlyIST) = 0) ∧
    (mondayMorningEST.localDay = 738885 ∧ mondayMorningEST.Weekday = 1 ∧
      cutoffDate mondayMorningEST = 738884 ∧ dayWeekday (cutoffDate mondayMorningEST) = 0) := by
  decide

/-! ## Ledger fields at creation -/

/-- The row persisted by the handler `CreateBooking`: there is one only when the body
decodes and the insert succeeds, and it is the request body with the context user, the
computed ledger fields, the drawn key, the new id and the column defaults. -/
theorem createBooking_added {insertFails : Bool} {dflt : Option String} {rnd : Nat}
    {s : Store} {req : CreateRequest} {b : Booking}
    (hb : b ∈ bookingsAdded s (BookingHandler.CreateBooking insertFails dflt rnd s req).2) :
    insertFails = false ∧ ∃ input, req.body = some input ∧
      b = { input with
        ID := s.nextBookingID
        UserID := (match req.ctxUserID with
          | some userID => some userID
          | none => input.UserID)
        FinalPrice := input.TotalPrice
        AdminCommission := input.TotalPrice * (1 / 10)
        AdminNetRevenue := input.TotalPrice * (1 / 10)
        BarberNetRevenue := input.TotalPrice - input.TotalPrice * (1 / 10)
        BookingKey := sprintf04d (rnd % 10000)
        SettlementStatus := dflt
        SettlementID := settlementIDDefault } := by
  unfold bookingsAdded BookingHandler.CreateBooking at hb
  cases hbody : req.body with
  | none => simp [hbody] at hb
  | some input =>
    cases insertFails with
    | true => simp [hbody, BookingRepository.CreateBooking] at hb
    | false =>
      refine ⟨rfl, input, rfl, ?_⟩
      cases hu : req.ctxUserID <;>
        simpa [hbody, hu, BookingRepository.CreateBooking] using hb

/-- C6. For every booking row persisted by `CreateBooking`, over exact arithmetic,
`adminNetRevenue + barberNetRevenue = totalPrice`, and `totalPrice` is the one of the
request, whatever ledger values the request body carried. -/
theorem ledger_split_exact (insertFails : Bool) (dflt : Option String) (rnd : Nat)
    (s : Store) (req : CreateRequest) (b : Booking)
    (hb : b ∈ bookingsAdded s (BookingHandler.CreateBooking insertFails dflt rnd s req).2) :
    b.AdminNetRevenue + b.BarberNetRevenue = b.TotalPrice ∧
    ∃ input, req.body = some input ∧ b.TotalPrice = input.TotalPrice := by
  obtain ⟨-, input, hin, rfl⟩ := createBooking_added hb
  exact ⟨by simp, input, hin, rfl⟩

/-- Witness of C6: `sampleRequest` (total 250, claimed shares 2 and 3) on `payoutStore`
persists `sampleRow`, with shares 25 and 225. -/
theorem ledger_split_exact_witness :
    bookingsAdded payoutStore
      (BookingHandler.CreateBooking false (some "PENDING") 417 payoutStore sampleRequest).2 =
      [sampleRow] ∧
    sampleRow.AdminNetRevenue + sampleRow.BarberNetRevenue = sampleRow.TotalPrice :=
  ⟨by decide!,
    (ledger_split_exact false (some "PENDING") 417 payoutStore sampleRequest sampleRow
      (by decide!)).1⟩

/-- C7. For every booking row persisted by `CreateBooking`, the ledger fields are
functions of the request's `totalPrice` alone, with commission rate 0.10:
`adminCommission = totalPrice × 0.10`, `adminNetRevenue = adminCommission`,
`barberNetRevenue = totalPrice - adminCommission`; any other persisted row made from
a request with the same `totalPrice` has the same three values, whatever ledger values
the two request bodies carried. -/
theorem ledger_fields_from_totalPrice (insertFails : Bool) (dflt : Option String)
    (rnd : Nat) (s : Store) (req : CreateRequest) (b : Booking)
    (hb : b ∈ bookingsAdded s (BookingHandler.CreateBooking insertFails dflt rnd s req).2) :
    (∃ input, req.body = some input ∧ b.TotalPrice = input.TotalPrice ∧
      b.AdminCommission = input.TotalPrice * (1 / 10)) ∧
    b.AdminCommission = b.TotalPrice * (1 / 10) ∧
    b.AdminNetRevenue = b.AdminCommission ∧
    b.BarberNetRevenue = b.TotalPrice - b.AdminCommission ∧
    ∀ (insertFails2 : Bool) (dflt2 : Option String) (rnd2 : Nat) (s2 : Store)
      (req2 : CreateRequest) (b2 : Booking),
      b2 ∈ bookingsAdded s2
        (BookingHandler.CreateBooking insertFails2 dflt2 rnd2 s2 req2).2 →
      b2.TotalPrice = b.TotalPrice →
      b2.AdminCommission = b.AdminCommission ∧ b2.AdminNetRevenue = b.AdminNetRevenue ∧
        b2.BarberNetRevenue = b.BarberNetRevenue := by
  obtain ⟨-, input, hin, rfl⟩ := createBooking_added hb
  refine ⟨⟨input, hin, rfl, rfl⟩, rfl, rfl, rfl, ?_⟩
  intro f2 d2 r2 s2 req2 b2 hb2 ht
  obtain ⟨-, input2, -, rfl⟩ := createBooking_added hb2
  have ht' : input2.TotalPrice = input.TotalPrice := ht
  simp [ht']

/-- Witness of C7: the row persisted for `sampleRequest`, whose body claims a commission
of 1 and shares of 2 and 3, has commission 25 and shares 25 and 225. -/
theorem ledger_fields_from_totalPrice_witness :
    (sampleRow.AdminCommission, sampleRow.AdminNetRevenue, sampleRow.BarberNetRevenue) =
      (25, 25, 225) ∧
    sampleRow.AdminCommission = sampleRow.TotalPrice * (1 / 10) ∧
    sampleRow.AdminNetRevenue = sampleRow.AdminCommission ∧
    sampleRow.BarberNetRevenue = sampleRow.TotalPrice - sampleRow.AdminCommission :=
  ⟨by decide!,
    (ledger_fields_from_totalPrice false (some "PENDING") 417 payoutStore sampleRequest
      sampleRow (by decide!)).2.1,
    (ledger_fields_from_totalPrice false (some "PENDING") 417 payoutStore sampleRequest
      sampleRow (by decide!)).2.2.1,
    (ledger_fields_from_totalPrice false (some "PENDING") 417 payoutStore sampleRequest
      sampleRow (by decide!)).2.2.2.1⟩

/-! ## The completion gate -/

/-- What the handler `CompleteBooking` does once the request is well formed and the
first row with the id is `booking`, when no database call fails. -/
theorem completeBooking_found {faults : CompleteFaults} {s : Store} {id : Int}
    {key : String} {booking : Booking}
    (hget : faults.get = false) (hupd : faults.update = false)
    (hfind : s.bookings.find? (fun b => b.ID = id) = some booking) :
    BookingHandler.CompleteBooking faults s { id := some id, bookingKey := some key } =
      if booking.BookingKey ≠ key then
        ({ code := 401, message := "Invalid Booking PIN", booking := none }, s)
      else
        ({ code := 200, message := "", booking := none },
          { s with bookings := s.bookings.map fun b =>
              if b.ID = id then { b with Status := "completed" } else b }) := by
  simp [BookingHandler.CompleteBooking, BookingRepository.GetBookingByID,
    BookingRepository.UpdateBookingStatus, hget, hupd, hfind]

/-- C8, counterexample. In `gateStore` booking 1 is cancelled and booking 2 is
completed. `CompleteBooking` with the matching key "0417" answers 200 for both, and
booking 1 goes from cancelled to completed: no status check, no InvalidState error. -/
theorem completeBooking_cancelled_becomes_completed :
    gateStore.bookings.map (fun b => (b.ID, b.Status, b.BookingKey)) =
      [(1, "cancelled", "0417"), (2, "completed", "0417"), (3, "pending", "0417")] ∧
    (BookingHandler.CompleteBooking { get := false, update := false } gateStore
      { id := some 1, bookingKey := some "0417" }).1 =
      { code := 200, message := "", booking := none } ∧
    (BookingHandler.CompleteBooking { get := false, update := false } gateStore
      { id := some 1, bookingKey := some "0417" }).2.bookings.map
        (fun b => (b.ID, b.Status)) =
      [(1, "completed"), (2, "completed"), (3, "pending")] ∧
    (BookingHandler.CompleteBooking { get := false, update := false } gateStore
      { id := some 2, bookingKey := some "0417" }).1 =
      { code := 200, message := "", booking := none } ∧
    ¬ ((BookingHandler.CompleteBooking { get := false, update := false } gateStore
          { id := some 1, bookingKey := some "0417" }).1.code ≠ 200 ∧
        (BookingHandler.CompleteBooking { get := false, update := false } gateStore
          { id := some 1, bookingKey := some "0417" }).2.bookings.map (fun b => b.Status) =
          gateStore.bookings.map (fun b => b.Status)) := by
  decide!

/-- With the matching key and no database call failing, `CompleteBooking` answers 200
and sets the status of every row with that id to completed. -/
theorem completeBooking_match {faults : CompleteFaults} {s : Store} {id : Int}
    {key : String} {booking : Booking}
    (hget : faults.get = false) (hupd : faults.update = false)
    (hfind : s.bookings.find? (fun b => b.ID = id) = some booking)
    (hkey : booking.BookingKey = key) :
    BookingHandler.CompleteBooking faults s { id := some id, bookingKey := some key } =
      ({ code := 200, message := "", booking := none },
        { s with bookings := s.bookings.map fun b =>
            if b.ID = id then { b with Status := "completed" } else b }) ∧
    ∀ b ∈ (BookingHandler.CompleteBooking faults s
        { id := some id, bookingKey := some key }).2.bookings,
      b.ID = id → b.Status = "completed" := by
  rw [completeBooking_found hget hupd hfind]
  simp only [hkey, ne_eq, not_true_eq_false, if_false, true_and]
  intro b hb hid
  obtain ⟨b0, -, rfl⟩ := List.mem_map.mp hb
  by_cases h0 : b0.ID = id
  · simp [h0]
  · simp [h0] at hid

/-- C8, as amended. `CompleteBooking` does not look at the current status. For every
existing booking, whatever its status, a call with the matching key (no database call
failing) answers 200, and afterwards every row with that id has status completed while
its other columns and all other rows are as before; so a completed booking stays
completed and a cancelled one becomes completed. -/
theorem completeBooking_ignores_status (faults : CompleteFaults) (s : Store) (id : Int)
    (key : String) (booking : Booking)
    (hget : faults.get = false) (hupd : faults.update = false)
    (hfind : s.bookings.find? (fun b => b.ID = id) = some booking)
    (hkey : booking.BookingKey = key) :
    (BookingHandler.CompleteBooking faults s { id := some id, bookingKey := some key }).1 =
      { code := 200, message := "", booking := none } ∧
    (∀ b ∈ (BookingHandler.CompleteBooking faults s
        { id := some id, bookingKey := some key }).2.bookings,
      b.ID = id → b.Status = "completed") ∧
    (BookingHandler.CompleteBooking faults s
        { id := some id, bookingKey := some key }).2.bookings =
      s.bookings.map (fun b => if b.ID = id then { b with Status := "completed" } else b) ∧
    (BookingHandler.CompleteBooking faults s
        { id := some id, bookingKey := some key }).2.settlements = s.settlements := by
  obtain ⟨h1, h2⟩ := completeBooking_match hget hupd hfind hkey
  refine ⟨?_, h2, ?_, ?_⟩ <;> rw [h1]

/-- Witness of the amended C8: the cancelled booking 1 of `gateStore`. -/
theorem completeBooking_ignores_status_witness :
    (sampleBooking 1 7 738890 "cancelled" "CASH" 10 90 (some "PENDING") none).Status =
      "cancelled" ∧
    (BookingHandler.CompleteBooking { get := false, update := false } gateStore
      { id := some 1, bookingKey := some "0417" }).1 =
      { code := 200, message := "", booking := none } :=
  ⟨by decide,
    (completeBooking_ignores_status { get := false, update := false } gateStore 1 "0417"
      (sampleBooking 1 7 738890 "cancelled" "CASH" 10 90 (some "PENDING") none)
      rfl rfl (by decide!) (by decide)).1⟩

/-- C9. For every existing booking with status pending and every candidate key (no
database call failing), `CompleteBooking` answers 200 and leaves every row with that
id completed exactly when the candidate key equals the stored key as a string; when the
keys differ it answers 401 "Invalid Booking PIN" and the store is unchanged. -/
theorem completeBooking_key_gate (faults : CompleteFaults) (s : Store) (id : Int)
    (key : String) (booking : Booking)
    (hget : faults.get = false) (hupd : faults.update = false)
    (hfind : s.bookings.find? (fun b => b.ID = id) = some booking)
    (hpending : booking.Status = "pending") :
    (((BookingHandler.CompleteBooking faults s
          { id := some id, bookingKey := some key }).1.code = 200 ∧
        ∀ b ∈ (BookingHandler.CompleteBooking faults s
            { id := some id, bookingKey := some key }).2.bookings,
          b.ID = id → b.Status = "completed") ↔ key = booking.BookingKey) ∧
    (key ≠ booking.BookingKey →
      (BookingHandler.CompleteBooking faults s
          { id := some id, bookingKey := some key }).1 =
        { code := 401, message := "Invalid Booking PIN", booking := none } ∧
      (BookingHandler.CompleteBooking faults s
          { id := some id, bookingKey := some key }).2 = s ∧
      ((BookingHandler.CompleteBooking faults s
          { id := some id, bookingKey := some key }).2.bookings.find?
            (fun b => b.ID = id)).map (fun b => b.Status) = some "pending") := by
  constructor
  · constructor
    · rintro ⟨hcode, -⟩
      by_contra hne
      rw [completeBooking_found hget hupd hfind] at hcode
      have hne' : booking.BookingKey ≠ key := fun h => hne h.symm
      simp [hne'] at hcode
    · intro hk
      obtain ⟨h1, h2⟩ := completeBooking_match hget hupd hfind hk.symm
      exact ⟨by rw [h1], h2⟩
  · intro hne
    have hne' : booking.BookingKey ≠ key := fun h => hne h.symm
    rw [completeBooking_found hget hupd hfind]
    simp [hne', hfind, hpending]

/-- Witness of C9, the example of the spec: booking 3 of `gateStore` is pending with
stored key "0417"; the request with key "0417" answers 200 and completes it, the
request with key "0000" answers 401 and leaves the store unchanged. -/
theorem completeBooking_key_gate_witness :
    ((BookingHandler.CompleteBooking { get := false, update := false } gateStore
        { id := some 3, bookingKey := some "0417" }).1.code = 200 ∧
      ∀ b ∈ (BookingHandler.CompleteBooking { get := false, update := false } gateStore
          { id := some 3, bookingKey := some "0417" }).2.bookings,
        b.ID = 3 → b.Status = "completed") ∧
    ((BookingHandler.CompleteBooking { get := false, update := false } gateStore
        { id := some 3, bookingKey := some "0000" }).1 =
        { code := 401, message := "Invalid Booking PIN", booking := none } ∧
      (BookingHandler.CompleteBooking { get := false, update := false } gateStore
        { id := some 3, bookingKey := some "0000" }).2 = gateStore ∧
      ((BookingHandler.CompleteBooking { get := false, update := false } gateStore
        { id := some 3, bookingKey := some "0000" }).2.bookings.find?
          (fun b => b.ID = 3)).map (fun b => b.Status) = some "pending") :=
  ⟨(completeBooking_key_gate { get := false, update := false } gateStore 3 "0417"
      (sampleBooking 3 7 738890 "pending" "CASH" 10 90 (some "PENDING") none)
      rfl rfl (by decide!) (by decide)).1.mpr (by decide),
    (completeBooking_key_gate { get := false, update := false } gateStore 3 "0000"
      (sampleBooking 3 7 738890 "pending" "CASH" 10 90 (some "PENDING") none)
      rfl rfl (by decide!) (by decide)).2 (by decide)⟩

/-! ## What creation accepts -/

/-- The store after the handler `CreateBooking`, and the status code of its answer, for
a body that decodes. -/
theorem createBooking_result (insertFails : Bool) (dflt : Option String) (rnd : Nat)
    (s : Store) (req : CreateRequest) (input : Booking) (hbody : req.body = some input) :
    (BookingHandler.CreateBooking insertFails dflt rnd s req).2 =
      (if insertFails then s
        else { s with
          bookings := s.bookings ++ [insertedRow dflt rnd s req.ctxUserID input]
          nextBookingID := s.nextBookingID + 1 }) ∧
    (BookingHandler.CreateBooking insertFails dflt rnd s req).1.code =
      (if insertFails then 500 else 200) := by
  unfold BookingHandler.CreateBooking
  cases insertFails <;> cases hu : req.ctxUserID <;>
    simp [hbody, hu, BookingRepository.CreateBooking, insertedRow]

/-- The rows added by the handler `CreateBooking`. -/
theorem createBooking_bookingsAdded (insertFails : Bool) (dflt : Option String) (rnd : Nat)
    (s : Store) (req : CreateRequest) :
    bookingsAdded s (BookingHandler.CreateBooking insertFails dflt rnd s req).2 =
      match req.body with
      | none => []
      | some input =>
        if insertFails then [] else [insertedRow dflt rnd s req.ctxUserID input] := by
  cases hbody : req.body with
  | none => simp [bookingsAdded, BookingHandler.CreateBooking, hbody]
  | some input =>
    rw [(createBooking_result insertFails dflt rnd s req input hbody).1]
    cases insertFails <;> simp [bookingsAdded]

/-- C11, counterexample. `negativeRequest` has `totalPrice = -100`. `CreateBooking`
answers 200 and persists a booking with total -100, commission -10 and barber share
-90: the request is not rejected. -/
theorem createBooking_accepts_negative_total :
    (BookingHandler.CreateBooking false (some "PENDING") 417 payoutStore
      negativeRequest).1.code = 200 ∧
    (bookingsAdded payoutStore (BookingHandler.CreateBooking false (some "PENDING") 417
      payoutStore negativeRequest).2).map
      (fun b => (b.ID, b.TotalPrice, b.AdminCommission, b.BarberNetRevenue)) =
      [(3, -100, -10, -90)] ∧
    ¬ ((BookingHandler.CreateBooking false (some "PENDING") 417 payoutStore
          negativeRequest).1.code ≠ 200 ∧
        bookingsAdded payoutStore (BookingHandler.CreateBooking false (some "PENDING") 417
          payoutStore negativeRequest).2 = []) := by
  decide!

/-- C11, as amended. `CreateBooking` does not look at the sign of `totalPrice`. For every
creation request whose body decodes and whose `totalPrice` is negative, the handler
hands the booking to the insert like any other: when the insert succeeds it answers 200
and persists one booking with that negative `totalPrice` (and the ledger fields
computed from it); only a failing insert gives 500 and persists nothing. -/
theorem createBooking_no_price_check (insertFails : Bool) (dflt : Option String)
    (rnd : Nat) (s : Store) (req : CreateRequest) (input : Booking)
    (hbody : req.body = some input) (hneg : input.TotalPrice < 0) :
    (insertFails = false →
      (BookingHandler.CreateBooking insertFails dflt rnd s req).1.code = 200 ∧
      ∃ row, bookingsAdded s (BookingHandler.CreateBooking insertFails dflt rnd s req).2 =
          [row] ∧
        row.TotalPrice = input.TotalPrice ∧ row.TotalPrice < 0 ∧
        row.AdminCommission = input.TotalPrice * (1 / 10) ∧
        row.BarberNetRevenue = input.TotalPrice - input.TotalPrice * (1 / 10)) ∧
    (insertFails = true →
      (BookingHandler.CreateBooking insertFails dflt rnd s req).1.code = 500 ∧
      bookingsAdded s (BookingHandler.CreateBooking insertFails dflt rnd s req).2 = []) := by
  have hres := createBooking_result insertFails dflt rnd s req input hbody
  have hadd := createBooking_bookingsAdded insertFails dflt rnd s req
  rw [hbody] at hadd
  constructor
  · intro hf
    subst hf
    refine ⟨by simpa using hres.2, insertedRow dflt rnd s req.ctxUserID input, ?_, rfl, hneg,
      rfl, rfl⟩
    simpa using hadd
  · intro hf
    subst hf
    exact ⟨by simpa using hres.2, by simpa using hadd⟩

/-- Witness of the amended C11: `negativeRequest` on `payoutStore`. -/
theorem createBooking_no_price_check_witness :
    (sampleBody (-100) 0 "pending").TotalPrice < 0 ∧
    (BookingHandler.CreateBooking false (some "PENDING") 417 payoutStore
      negativeRequest).1.code = 200 :=
  ⟨by decide!,
    ((createBooking_no_price_check false (some "PENDING") 417 payoutStore negativeRequest
      (sampleBody (-100) 0 "pending") rfl (by decide!)).1 rfl).1⟩

/-- C17, counterexample. `discountRequest` has `totalPrice = 250` and
`discountAmount = 50`. The persisted booking keeps the discount 50 and has
`finalPrice = 250`, not `250 - 50`. -/
theorem createBooking_finalPrice_ignores_discount :
    (bookingsAdded payoutStore (BookingHandler.CreateBooking false (some "PENDING") 417
      payoutStore discountRequest).2).map
      (fun b => (b.ID, b.TotalPrice, b.DiscountAmount, b.FinalPrice)) =
      [(3, 250, 50, 250)] ∧
    ¬ (∀ b ∈ bookingsAdded payoutStore (BookingHandler.CreateBooking false (some "PENDING")
        417 payoutStore discountRequest).2,
      b.FinalPrice = b.TotalPrice - b.DiscountAmount) := by
  decide!

/-- C17, as amended. For every booking persisted by `CreateBooking`, `discountAmount`
is the one of the request and `finalPrice = totalPrice`: no discount is applied. So
`finalPrice = totalPrice - discountAmount` holds exactly when the request carries
`discountAmount = 0`. -/
theorem createBooking_finalPrice (insertFails : Bool) (dflt : Option String) (rnd : Nat)
    (s : Store) (req : CreateRequest) (b : Booking)
    (hb : b ∈ bookingsAdded s (BookingHandler.CreateBooking insertFails dflt rnd s req).2) :
    b.FinalPrice = b.TotalPrice ∧
    (∃ input, req.body = some input ∧ b.DiscountAmount = input.DiscountAmount ∧
      b.TotalPrice = input.TotalPrice) ∧
    (b.FinalPrice = b.TotalPrice - b.DiscountAmount ↔ b.DiscountAmount = 0) := by
  obtain ⟨-, input, hin, rfl⟩ := createBooking_added hb
  refine ⟨rfl, ⟨input, hin, rfl, rfl⟩, ?_⟩
  show input.TotalPrice = input.TotalPrice - input.DiscountAmount ↔ input.DiscountAmount = 0
  constructor
  · intro h; linarith
  · intro h; rw [h]; ring

/-- Witness of the amended C17: the booking persisted for `discountRequest`. -/
theorem createBooking_finalPrice_witness :
    (insertedRow (some "PENDING") 417 payoutStore (some 42)
      (sampleBody 250 50 "pending")).FinalPrice =
    (insertedRow (some "PENDING") 417 payoutStore (some 42)
      (sampleBody 250 50 "pending")).TotalPrice :=
  (createBooking_finalPrice false (some "PENDING") 417 payoutStore discountRequest
    (insertedRow (some "PENDING") 417 payoutStore (some 42) (sampleBody 250 50 "pending"))
    (by decide!)).1

/-! ## The loop, row by row -/

theorem processRow_failed_seq (faults : JobFaults) (acc : Store × Nat) (row : SettlementRow)
    (hs : faults.scan row.shopID = false) (h : committed faults row = false) :
    acc.1.nextSettlementID ≤ (processRow faults acc row).1.nextSettlementID := by
  simp only [committed, hs, Bool.not_false, Bool.true_and, decide_eq_false_iff_not] at h
  cases hf : faults.tx row.shopID <;> simp_all [processRow, createSettlement]

/-- The loop over result rows that pairwise share no booking id. The settlements table
gains one row per committed result row that the loop reaches, with fresh and distinct
ids; every booking goes through one function `g`, which gives a booking listed in such a
row the status SETTLED and the id of the settlement of that row, and leaves alone a
booking listed in no such row. -/
theorem loop_linked (faults : JobFaults) (rows : List SettlementRow) :
    ∀ acc : Store × Nat, rows.Pairwise rowsDisjoint →
      ∃ (news : List Settlement) (g : Booking → Booking),
        (settlementLoop faults rows acc).1.settlements = acc.1.settlements ++ news ∧
        (settlementLoop faults rows acc).1.bookings = acc.1.bookings.map g ∧
        (settlementLoop faults rows acc).1.nextBookingID = acc.1.nextBookingID ∧
        acc.1.nextSettlementID ≤ (settlementLoop faults rows acc).1.nextSettlementID ∧
        List.Forall₂ (fun st row => row ∈ rows ∧ st = rowSettlement st.ID row ∧
            ∀ b : Booking, b.ID ∈ row.bookingIDs → g b = b.settle st.ID)
          news ((processedRows faults rows).filter (committed faults)) ∧
        (∀ b : Booking,
          (∀ row ∈ processedRows faults rows, committed faults row = true →
            b.ID ∉ row.bookingIDs) → g b = b) ∧
        (∀ st ∈ news, acc.1.nextSettlementID ≤ st.ID ∧
          st.ID < (settlementLoop faults rows acc).1.nextSettlementID) ∧
        (news.map (·.ID)).Nodup := by
  induction rows with
  | nil =>
    intro acc _
    exact ⟨[], id, by simp [settlementLoop], by simp [settlementLoop], rfl, le_refl _,
      by simp [processedRows], fun _ _ => rfl, by simp, by simp⟩
  | cons row rows ih =>
    intro acc hpw
    by_cases hs : faults.scan row.shopID = true
    · obtain ⟨hl, hp⟩ := settlementLoop_cons_scan faults row rows acc hs
      rw [hl, hp]
      exact ⟨[], id, by simp, by simp, rfl, le_refl _, by simp, fun _ _ => rfl, by simp,
        by simp⟩
    have hs : faults.scan row.shopID = false := by simpa using hs
    obtain ⟨hl, hp⟩ := settlementLoop_cons_ok faults row rows acc hs
    rw [hl, hp]
    obtain ⟨hhead, htail⟩ := List.pairwise_cons.mp hpw
    obtain ⟨news, g, hS, hB, hNB, hSeq, hF, hU, hI, hN⟩ := ih (processRow faults acc row) htail
    by_cases hc : committed faults row = true
    · have hrow := processRow_committed faults acc row hc
      have hS' : (processRow faults acc row).1.settlements =
          acc.1.settlements ++ [rowSettlement acc.1.nextSettlementID row] := by rw [hrow]
      have hB' : (processRow faults acc row).1.bookings =
          markSettled acc.1.nextSettlementID row.bookingIDs acc.1.bookings := by rw [hrow]
      have hNB' : (processRow faults acc row).1.nextBookingID = acc.1.nextBookingID := by
        rw [hrow]
      have hSeq' : (processRow faults acc row).1.nextSettlementID =
          acc.1.nextSettlementID + 1 := by rw [hrow]
      let f : Booking → Booking := fun b =>
        if b.ID ∈ row.bookingIDs then b.settle acc.1.nextSettlementID else b
      have hf_in : ∀ b : Booking, b.ID ∈ row.bookingIDs →
          f b = b.settle acc.1.nextSettlementID := by
        intro b hb; simp [f, hb]
      have hf_out : ∀ b : Booking, b.ID ∉ row.bookingIDs → f b = b := by
        intro b hb; simp [f, hb]
      refine ⟨rowSettlement acc.1.nextSettlementID row :: news, g ∘ f, ?_, ?_, ?_, ?_, ?_, ?_,
        ?_, ?_⟩
      · rw [hS, hS']; simp
      · rw [hB, hB']; simp [markSettled, f, Function.comp_def]
      · rw [hNB, hNB']
      · rw [hSeq'] at hSeq; omega
      · rw [List.filter_cons_of_pos hc]
        refine List.Forall₂.cons ⟨List.mem_cons_self _ _, rfl, ?_⟩ ?_
        · intro b hb
          show g (f b) = _
          rw [hf_in b hb]
          apply hU
          intro r hr _
          exact hhead r (mem_processedRows hr).1 b.ID hb
        · refine hF.imp ?_
          rintro st r ⟨hr, hst, hg⟩
          refine ⟨List.mem_cons_of_mem _ hr, hst, ?_⟩
          intro b hb
          have hnot : b.ID ∉ row.bookingIDs := fun hin => hhead r hr b.ID hin hb
          show g (f b) = _
          rw [hf_out b hnot]
          exact hg b hb
      · intro b hall
        have hnot : b.ID ∉ row.bookingIDs := hall row (List.mem_cons_self _ _) hc
        show g (f b) = b
        rw [hf_out b hnot]
        exact hU b fun r hr hcr => hall r (List.mem_cons_of_mem _ hr) hcr
      · intro st hst
        rcases List.mem_cons.mp hst with rfl | hst
        · rw [hSeq'] at hSeq
          exact ⟨le_refl _, by show acc.1.nextSettlementID < _; omega⟩
        · obtain ⟨h1, h2⟩ := hI st hst
          rw [hSeq'] at h1
          exact ⟨by omega, h2⟩
      · rw [List.map_cons, List.nodup_cons]
        refine ⟨?_, hN⟩
        intro hmem
        obtain ⟨st, hst, hid⟩ := List.mem_map.mp hmem
        obtain ⟨h1, -⟩ := hI st hst
        rw [hSeq'] at h1
        have : st.ID = acc.1.nextSettlementID := hid
        omega
    · have hc' : committed faults row = false := by simpa using hc
      obtain ⟨hb0, hs0, hnb0, -⟩ := processRow_failed faults acc row hs hc'
      have hseq0 := processRow_failed_seq faults acc row hs hc'
      refine ⟨news, g, ?_, ?_, ?_, ?_, ?_, ?_, ?_, hN⟩
      · rw [hS, hs0]
      · rw [hB, hb0]
      · rw [hNB, hnb0]
      · omega
      · rw [List.filter_cons_of_neg hc]
        refine hF.imp ?_
        rintro st r ⟨hr, hst, hg⟩
        exact ⟨List.mem_cons_of_mem _ hr, hst, hg⟩
      · intro b hall
        exact hU b fun r hr hcr => hall r (List.mem_cons_of_mem _ hr) hcr
      · intro st hst
        obtain ⟨h1, h2⟩ := hI st hst
        exact ⟨by omega, h2⟩

/-- With unique booking ids, the result rows of the query pairwise share no booking. -/
theorem settlementQuery_pairwise (cutoff : Int) (bookings : List Booking)
    (hid : (bookings.map (·.ID)).Nodup) :
    (settlementQuery cutoff bookings).Pairwise rowsDisjoint := by
  unfold settlementQuery
  rw [List.pairwise_map]
  refine (List.nodup_dedup _).imp ?_
  intro shop₁ shop₂ hne id h1 h2
  simp only [aggregate, List.mem_map, List.mem_filter, decide_eq_true_eq] at h1 h2
  obtain ⟨b₁, ⟨⟨hb₁, -⟩, hs₁⟩, hid₁⟩ := h1
  obtain ⟨b₂, ⟨⟨hb₂, -⟩, hs₂⟩, hid₂⟩ := h2
  have : b₁ = b₂ := List.inj_on_of_nodup_map hid hb₁ hb₂ (hid₁.trans hid₂.symm)
  subst this
  exact hne (hs₁.symm.trans hs₂)

/-! ## Consistency of bookings and settlements -/

/-- The store after the handler `CompleteBooking`: the bookings went through a function
that changes at most the status column. -/
theorem completeBooking_store (faults : CompleteFaults) (s : Store) (req : CompleteRequest) :
    ∃ g : Booking → Booking,
      (BookingHandler.CompleteBooking faults s req).2 =
        { s with bookings := s.bookings.map g } ∧
      ∀ b, g b = b ∨ g b = { b with Status := "completed" } := by
  unfold BookingHandler.CompleteBooking
  have hid : ∃ g : Booking → Booking, s = { s with bookings := s.bookings.map g } ∧
      ∀ b, g b = b ∨ g b = { b with Status := "completed" } :=
    ⟨id, by simp, fun b => Or.inl rfl⟩
  cases req.id with
  | none => exact hid
  | some id =>
    cases req.bookingKey with
    | none => exact hid
    | some key =>
      cases hget : BookingRepository.GetBookingByID faults.get s id with
      | error e => simpa [hget] using hid
      | ok ob =>
        cases ob with
        | none => simpa [hget] using hid
        | some booking =>
          by_cases hk : booking.BookingKey = key
          · cases hu : faults.update
            · refine ⟨fun b => if b.ID = id then { b with Status := "completed" } else b,
                ?_, ?_⟩
              · simp [hget, hk, hu, BookingRepository.UpdateBookingStatus]
              · intro b
                by_cases hb : b.ID = id
                · exact Or.inr (by simp [hb])
                · exact Or.inl (by simp [hb])
            · simpa [hget, hk, hu, BookingRepository.UpdateBookingStatus] using hid
          · simpa [hget, hk] using hid

/-- Consistency survives any rewrite of the bookings that keeps the id and the two
settlement columns of every row. -/
theorem Consistent.map_bookings {s : Store} (h : Consistent s) (g : Booking → Booking)
    (hg : ∀ b, (g b).ID = b.ID ∧ (g b).SettlementStatus = b.SettlementStatus ∧
      (g b).SettlementID = b.SettlementID) :
    Consistent { s with bookings := s.bookings.map g } := by
  have hids : (s.bookings.map g).map (·.ID) = s.bookings.map (·.ID) := by
    rw [List.map_map]
    apply List.map_congr_left
    intro b _
    exact (hg b).1
  refine ⟨?_, ?_, h.settlementIDs_nodup, h.settlementIDs_lt, ?_, ?_⟩
  · show ((s.bookings.map g).map (·.ID)).Nodup
    rw [hids]; exact h.bookingIDs_nodup
  · intro b' hb'
    obtain ⟨b, hb, rfl⟩ := List.mem_map.mp hb'
    rw [(hg b).1]; exact h.bookingIDs_lt b hb
  · intro st hst id hid
    obtain ⟨b, hb, h1, h2, h3⟩ := h.listed_settled st hst id hid
    exact ⟨g b, List.mem_map_of_mem g hb, by rw [(hg b).1]; exact h1,
      by rw [(hg b).2.1]; exact h2, by rw [(hg b).2.2]; exact h3⟩
  · intro b' hb' hs
    obtain ⟨b, hb, rfl⟩ := List.mem_map.mp hb'
    rw [(hg b).2.1] at hs
    obtain ⟨st, hst, h1, h2⟩ := h.settled_listed b hb hs
    exact ⟨st, hst, by rw [(hg b).1]; exact h1, by rw [(hg b).2.2]; exact h2⟩

theorem consistent_complete (faults : CompleteFaults) (s : Store) (req : CompleteRequest)
    (h : Consistent s) : Consistent (BookingHandler.CompleteBooking faults s req).2 := by
  obtain ⟨g, hg, hcases⟩ := completeBooking_store faults s req
  rw [hg]
  apply h.map_bookings
  intro b
  rcases hcases b with hb | hb <;> rw [hb] <;> exact ⟨rfl, rfl, rfl⟩

theorem consistent_create (insertFails : Bool) (dflt : Option String) (rnd : Nat)
    (s : Store) (req : CreateRequest) (hdflt : dflt ≠ some "SETTLED") (h : Consistent s) :
    Consistent (BookingHandler.CreateBooking insertFails dflt rnd s req).2 := by
  cases hbody : req.body with
  | none =>
    have : (BookingHandler.CreateBooking insertFails dflt rnd s req).2 = s := by
      simp [BookingHandler.CreateBooking, hbody]
    rw [this]; exact h
  | some input =>
    rw [(createBooking_result insertFails dflt rnd s req input hbody).1]
    cases insertFails with
    | true => simpa using h
    | false =>
      simp only [Bool.false_eq_true, if_false]
      have hrowid : (insertedRow dflt rnd s req.ctxUserID input).ID = s.nextBookingID := rfl
      have hrowst : (insertedRow dflt rnd s req.ctxUserID input).SettlementStatus = dflt := rfl
      refine ⟨?_, ?_, h.settlementIDs_nodup, h.settlementIDs_lt, ?_, ?_⟩
      · show ((s.bookings ++ [insertedRow dflt rnd s req.ctxUserID input]).map (·.ID)).Nodup
        rw [List.map_append, List.nodup_append]
        refine ⟨h.bookingIDs_nodup, by simp, ?_⟩
        intro id h1 h2
        obtain ⟨b, hb, rfl⟩ := List.mem_map.mp h1
        have hlt := h.bookingIDs_lt b hb
        simp only [List.map_cons, List.map_nil, List.mem_singleton] at h2
        rw [hrowid] at h2
        omega
      · intro b hb
        show b.ID < s.nextBookingID + 1
        rcases List.mem_append.mp hb with hb | hb
        · have := h.bookingIDs_lt b hb; omega
        · rw [List.mem_singleton.mp hb, hrowid]; omega
      · intro st hst id hid
        obtain ⟨b, hb, h1⟩ := h.listed_settled st hst id hid
        exact ⟨b, List.mem_append_left _ hb, h1⟩
      · intro b hb hs
        rcases List.mem_append.mp hb with hb | hb
        · exact h.settled_listed b hb hs
        · rw [List.mem_singleton.mp hb, hrowst] at hs
          exact absurd hs hdflt

/-- Every id listed by a result row is the id of an eligible booking of the table. -/
theorem row_ids_eligible {cutoff : Int} {bookings : List Booking} {row : SettlementRow}
    (hrow : row ∈ settlementQuery cutoff bookings) {id : Int} (hid : id ∈ row.bookingIDs) :
    ∃ b ∈ bookings, b.ID = id ∧ eligible cutoff b = true ∧ b.ShopID = row.shopID := by
  obtain ⟨hagg, -⟩ := mem_settlementQuery hrow
  rw [hagg] at hid
  simp only [aggregate, List.mem_map] at hid
  obtain ⟨b, hb, rfl⟩ := hid
  obtain ⟨h1, h2, h3⟩ := mem_shopGroup.mp hb
  exact ⟨b, h1, rfl, h2, h3⟩

/-- The run from the query on, with unique booking ids: the facts of `loop_linked` for
the result rows of the query. -/
theorem run_linked (faults : JobFaults) (cutoff : Int) (s : Store)
    (hid : (s.bookings.map (·.ID)).Nodup) (hq : faults.query = false) :
    ∃ (news : List Settlement) (g : Booking → Booking),
      (RunSettlementJobAt faults cutoff s).1.settlements = s.settlements ++ news ∧
      (RunSettlementJobAt faults cutoff s).1.bookings = s.bookings.map g ∧
      (RunSettlementJobAt faults cutoff s).1.nextBookingID = s.nextBookingID ∧
      s.nextSettlementID ≤ (RunSettlementJobAt faults cutoff s).1.nextSettlementID ∧
      List.Forall₂ (fun st row => row ∈ settlementQuery cutoff s.bookings ∧
          st = rowSettlement st.ID row ∧
          ∀ b : Booking, b.ID ∈ row.bookingIDs → g b = b.settle st.ID)
        news ((processedRows faults (settlementQuery cutoff s.bookings)).filter
          (committed faults)) ∧
      (∀ b : Booking,
        (∀ row ∈ processedRows faults (settlementQuery cutoff s.bookings),
          committed faults row = true → b.ID ∉ row.bookingIDs) → g b = b) ∧
      (∀ st ∈ news, s.nextSettlementID ≤ st.ID ∧
        st.ID < (RunSettlementJobAt faults cutoff s).1.nextSettlementID) ∧
      (news.map (·.ID)).Nodup := by
  have h := loop_linked faults (settlementQuery cutoff s.bookings) (s, 0)
    (settlementQuery_pairwise cutoff s.bookings hid)
  simpa [RunSettlementJobAt, hq] using h

/-- In a run, a booking is left alone, or is listed by a committed result row and gets
the id of the settlement created for that row. -/
theorem run_linked_cases {faults : JobFaults} {cutoff : Int} {s : Store}
    {news : List Settlement} {g : Booking → Booking}
    (hF : List.Forall₂ (fun st row => row ∈ settlementQuery cutoff s.bookings ∧
          st = rowSettlement st.ID row ∧
          ∀ b : Booking, b.ID ∈ row.bookingIDs → g b = b.settle st.ID)
        news ((processedRows faults (settlementQuery cutoff s.bookings)).filter
          (committed faults)))
    (hU : ∀ b : Booking,
        (∀ row ∈ processedRows faults (settlementQuery cutoff s.bookings),
          committed faults row = true → b.ID ∉ row.bookingIDs) → g b = b)
    (b : Booking) :
    g b = b ∨ ∃ st ∈ news, ∃ row ∈ settlementQuery cutoff s.bookings,
      committed faults row = true ∧ b.ID ∈ row.bookingIDs ∧ st.Bookings = row.bookingIDs ∧
      st.ShopID = row.shopID ∧ g b = b.settle st.ID := by
  by_cases hex : ∃ row ∈ processedRows faults (settlementQuery cutoff s.bookings),
      committed faults row = true ∧ b.ID ∈ row.bookingIDs
  · obtain ⟨row, hrow, hc, hmem⟩ := hex
    obtain ⟨st, hst, -, hst', hg⟩ :=
      forall₂_mem_right hF (List.mem_filter.mpr ⟨hrow, hc⟩)
    refine Or.inr ⟨st, hst, row, (mem_processedRows hrow).1, hc, hmem, ?_, ?_, hg b hmem⟩
    · rw [hst']; rfl
    · rw [hst']; rfl
  · refine Or.inl (hU b ?_)
    intro row hrow hc hmem
    exact hex ⟨row, hrow, hc, hmem⟩

theorem consistent_run (faults : JobFaults) (cutoff : Int) (s : Store) (h : Consistent s) :
    Consistent (RunSettlementJobAt faults cutoff s).1 := by
  by_cases hq : faults.query = true
  · simpa [RunSettlementJobAt, hq] using h
  have hq : faults.query = false := by simpa using hq
  obtain ⟨news, g, hS, hB, hNB, hSeq, hF, hU, hI, hN⟩ :=
    run_linked faults cutoff s h.bookingIDs_nodup hq
  have hcases := run_linked_cases hF hU
  have hgid : ∀ b, (g b).ID = b.ID := by
    intro b
    rcases hcases b with hb | ⟨st, -, row, -, -, -, -, -, hb⟩ <;> rw [hb]
    rfl
  have hsettled_fix : ∀ b ∈ s.bookings, b.SettlementStatus = some "SETTLED" → g b = b := by
    intro b hb hs
    apply hU
    intro row hrow _ hmem
    obtain ⟨b', hb', hid', he, -⟩ := row_ids_eligible (mem_processedRows hrow).1 hmem
    have : b' = b := List.inj_on_of_nodup_map h.bookingIDs_nodup hb' hb hid'
    subst this
    rw [eligible_false_of_settled hs] at he
    exact absurd he (by decide)
  refine ⟨?_, ?_, ?_, ?_, ?_, ?_⟩
  · rw [hB, List.map_map]
    have : s.bookings.map ((fun b => b.ID) ∘ g) = s.bookings.map (·.ID) :=
      List.map_congr_left fun b _ => hgid b
    rw [this]; exact h.bookingIDs_nodup
  · intro b' hb'
    rw [hB] at hb'
    obtain ⟨b, hb, rfl⟩ := List.mem_map.mp hb'
    rw [hgid, hNB]; exact h.bookingIDs_lt b hb
  · rw [hS, List.map_append, List.nodup_append]
    refine ⟨h.settlementIDs_nodup, hN, ?_⟩
    intro id h1 h2
    obtain ⟨st, hst, rfl⟩ := List.mem_map.mp h1
    obtain ⟨st', hst', hid'⟩ := List.mem_map.mp h2
    have := h.settlementIDs_lt st hst
    have := (hI st' hst').1
    have : st'.ID = st.ID := hid'
    omega
  · intro st hst
    rw [hS] at hst
    rcases List.mem_append.mp hst with hst | hst
    · have := h.settlementIDs_lt st hst; omega
    · exact (hI st hst).2
  · intro st hst id hid
    rw [hS] at hst
    rw [hB]
    rcases List.mem_append.mp hst with hst | hst
    · obtain ⟨b, hb, h1, h2, h3⟩ := h.listed_settled st hst id hid
      refine ⟨g b, List.mem_map_of_mem g hb, ?_⟩
      rw [hsettled_fix b hb h2]
      exact ⟨h1, h2, h3⟩
    · obtain ⟨row, hrow, hrow', hst', hg⟩ := forall₂_mem_left hF hst
      have hbk : st.Bookings = row.bookingIDs := by rw [hst']; rfl
      rw [hbk] at hid
      obtain ⟨b, hb, hbid, -, -⟩ := row_ids_eligible hrow' hid
      refine ⟨g b, List.mem_map_of_mem g hb, ?_⟩
      rw [hg b (by rw [hbid]; exact hid)]
      exact ⟨hbid, rfl, rfl⟩
  · intro b' hb' hs
    rw [hB] at hb'
    obtain ⟨b, hb, rfl⟩ := List.mem_map.mp hb'
    rw [hS]
    rcases hcases b with hgb | ⟨st, hst, row, -, -, hmem, hbk, -, hgb⟩
    · rw [hgb] at hs ⊢
      obtain ⟨st, hst, h1, h2⟩ := h.settled_listed b hb hs
      exact ⟨st, List.mem_append_left _ hst, h1, h2⟩
    · rw [hgb]
      exact ⟨st, List.mem_append_right _ hst, by rw [hbk]; exact hmem, rfl⟩

theorem consistent_apply (dflt : Option String) (hdflt : dflt ≠ some "SETTLED") (s : Store)
    (op : Op) (h : Consistent s) : Consistent (op.apply dflt s) := by
  cases op with
  | run faults now => exact consistent_run faults (cutoffDate now) s h
  | create insertFails rnd req => exact consistent_create insertFails dflt rnd s req hdflt h
  | complete faults req => exact consistent_complete faults s req h

theorem consistent_runOps (dflt : Option String) (hdflt : dflt ≠ some "SETTLED")
    (ops : List Op) : ∀ s : Store, Consistent s → Consistent (runOps dflt s ops) := by
  induction ops with
  | nil => intro s h; exact h
  | cons op ops ih =>
    intro s h
    exact ih (op.apply dflt s) (consistent_apply dflt hdflt s op h)

/-- In a consistent store a SETTLED booking is listed by exactly one settlement, the one
its `SettlementID` names. -/
theorem Consistent.settled_unique {s : Store} (h : Consistent s) {b : Booking}
    (hb : b ∈ s.bookings) (hs : b.SettlementStatus = some "SETTLED") :
    ∃ st ∈ s.settlements, b.ID ∈ st.Bookings ∧ b.SettlementID = some st.ID ∧
      (∀ st' ∈ s.settlements, b.ID ∈ st'.Bookings → st' = st) ∧
      s.settlements.countP (fun st' => b.ID ∈ st'.Bookings) = 1 := by
  obtain ⟨st, hst, h1, h2⟩ := h.settled_listed b hb hs
  have huniq : ∀ st' ∈ s.settlements, b.ID ∈ st'.Bookings → st' = st := by
    intro st' hst' hmem
    obtain ⟨b', hb', hid', -, h3⟩ := h.listed_settled st' hst' b.ID hmem
    have : b' = b := List.inj_on_of_nodup_map h.bookingIDs_nodup hb' hb hid'
    subst this
    rw [h2] at h3
    exact List.inj_on_of_nodup_map h.settlementIDs_nodup hst' hst (Option.some.inj h3).symm
  refine ⟨st, hst, h1, h2, huniq, ?_⟩
  have hcount : s.settlements.countP (fun st' => b.ID ∈ st'.Bookings) =
      s.settlements.count st := by
    rw [List.count]
    apply List.countP_congr
    intro st' hst'
    simp only [decide_eq_true_eq, beq_iff_eq]
    exact ⟨fun hm => huniq st' hst' hm, fun he => he ▸ h1⟩
  rw [hcount]
  exact List.count_eq_one_of_mem h.settlementIDs_nodup.of_map hst

/-- A store with unique booking ids below the sequence, no settlement and no SETTLED
booking is consistent. -/
theorem consistent_initial (s : Store) (hids : (s.bookings.map (·.ID)).Nodup)
    (hlt : ∀ b ∈ s.bookings, b.ID < s.nextBookingID) (hnoset : s.settlements = [])
    (hnone : ∀ b ∈ s.bookings, b.SettlementStatus ≠ some "SETTLED") : Consistent s := by
  refine ⟨hids, hlt, ?_, ?_, ?_, ?_⟩
  · rw [hnoset]; exact List.nodup_nil
  · rw [hnoset]; intro st hst; cases hst
  · rw [hnoset]; intro st hst; cases hst
  · intro b hb hs; exact absurd hs (hnone b hb)

/-- C12. Start from a store with no settlement and no settled booking (booking ids
unique and below the id sequence, the column default of `settlement_status` not
SETTLED). After any finite sequence of job runs, booking creations and completions, run
one after the other with any faults, every booking with `settlementStatus = SETTLED` is
listed by exactly one settlement of the table, and that settlement is the one its
`settlementId` names. -/
theorem settled_booking_in_one_settlement (dflt : Option String) (s : Store)
    (ops : List Op) (hdflt : dflt ≠ some "SETTLED")
    (hids : (s.bookings.map (·.ID)).Nodup)
    (hlt : ∀ b ∈ s.bookings, b.ID < s.nextBookingID)
    (hnoset : s.settlements = [])
    (hnone : ∀ b ∈ s.bookings, b.SettlementStatus ≠ some "SETTLED")
    (b : Booking) (hb : b ∈ (runOps dflt s ops).bookings)
    (hs : b.SettlementStatus = some "SETTLED") :
    ∃ st ∈ (runOps dflt s ops).settlements,
      b.ID ∈ st.Bookings ∧ b.SettlementID = some st.ID ∧
      (∀ st' ∈ (runOps dflt s ops).settlements, b.ID ∈ st'.Bookings → st' = st) ∧
      (runOps dflt s ops).settlements.countP (fun st' => b.ID ∈ st'.Bookings) = 1 :=
  (consistent_runOps dflt hdflt ops s (consistent_initial s hids hlt hnoset hnone)).settled_unique
    hb hs

/-- Witness of C12: after `sampleHistory` on `payoutStore` the settlements 1 and 2 list
the bookings 1, 2 and 3; booking 3 is settled and listed by settlement 2 alone. -/
theorem settled_booking_in_one_settlement_witness :
    (runOps (some "PENDING") payoutStore sampleHistory).settlements.map
      (fun st => (st.ID, st.Bookings)) = [(1, [1, 2]), (2, [3])] ∧
    (runOps (some "PENDING") payoutStore sampleHistory).bookings.map
      (fun b => (b.ID, b.SettlementStatus, b.SettlementID)) =
      [(1, some "SETTLED", some 1), (2, some "SETTLED", some 1), (3, some "SETTLED", some 2)] ∧
    ∃ st ∈ (runOps (some "PENDING") payoutStore sampleHistory).settlements,
      (3 : Int) ∈ st.Bookings ∧ some (2 : Int) = some st.ID ∧
      (∀ st' ∈ (runOps (some "PENDING") payoutStore sampleHistory).settlements,
        (3 : Int) ∈ st'.Bookings → st' = st) ∧
      (runOps (some "PENDING") payoutStore sampleHistory).settlements.countP
        (fun st' => (3 : Int) ∈ st'.Bookings) = 1 :=
  ⟨by decide!, by decide!,
    settled_booking_in_one_settlement (some "PENDING") payoutStore sampleHistory (by decide)
      (by decide!) (by decide!) rfl (by decide!)
      { sampleRow with Status := "completed", SettlementStatus := some "SETTLED",
                       SettlementID := some 2 }
      (by decide!) rfl⟩

/-! ## Settlement id and settlement status -/

theorem settlementLinked_settle (b : Booking) (id : Int) : settlementLinked (b.settle id) := by
  simp [settlementLinked, Booking.settle]

theorem settlementLinked_of_settledFrom {b b' : Booking} (h : settledFrom b b')
    (hb : settlementLinked b) : settlementLinked b' := by
  rcases h with rfl | ⟨id, rfl⟩
  · exact hb
  · exact settlementLinked_settle b id

/-- Every booking row after `createSettlement` is a row from before, left alone or
marked settled. -/
theorem createSettlement_bookings (fault : TxFault) (s : Store) (shopID : Int)
    (sType : String) (amount : ℚ) (status : String) (bookingIDs : List Int)
    (start stop : Int) :
    ∀ b' ∈ (createSettlement fault s shopID sType amount status bookingIDs start
        stop).2.bookings, ∃ b ∈ s.bookings, settledFrom b b' := by
  intro b' hb'
  cases fault <;> simp only [createSettlement, reduceCtorEq, if_true, if_false] at hb'
  case none =>
    simp only [markSettled] at hb'
    obtain ⟨b, hb, rfl⟩ := List.mem_map.mp hb'
    refine ⟨b, hb, ?_⟩
    by_cases hm : b.ID ∈ bookingIDs
    · exact Or.inr ⟨s.nextSettlementID, by simp [hm]⟩
    · exact Or.inl (by simp [hm])
  all_goals exact ⟨b', hb', Or.inl rfl⟩

/-- Every booking row after a run of the job is a row from before, left alone or marked
settled. -/
theorem run_bookings (faults : JobFaults) (cutoff : Int) (s : Store) :
    ∀ b' ∈ (RunSettlementJobAt faults cutoff s).1.bookings,
      ∃ b ∈ s.bookings, settledFrom b b' := by
  intro b' hb'
  by_cases hq : faults.query = true
  · simp only [RunSettlementJobAt, hq, if_true] at hb'
    exact ⟨b', hb', Or.inl rfl⟩
  · obtain ⟨g, hg, hprop⟩ := loop_bookings faults (settlementQuery cutoff s.bookings) (s, 0)
    simp only [RunSettlementJobAt, hq, Bool.false_eq_true, if_false] at hb'
    rw [hg] at hb'
    obtain ⟨b, hb, rfl⟩ := List.mem_map.mp hb'
    exact ⟨b, hb, (hprop b).1⟩

/-- Every booking row after `UpdateBookingStatus` is a row from before with at most the
status column changed. -/
theorem updateBookingStatus_bookings (execFails : Bool) (s : Store) (id : Int)
    (status : String) :
    ∀ b' ∈ (BookingRepository.UpdateBookingStatus execFails s id status).2.bookings,
      ∃ b ∈ s.bookings, b' = b ∨ b' = { b with Status := status } := by
  intro b' hb'
  cases execFails
  · simp only [BookingRepository.UpdateBookingStatus, Bool.false_eq_true, if_false] at hb'
    obtain ⟨b, hb, rfl⟩ := List.mem_map.mp hb'
    refine ⟨b, hb, ?_⟩
    by_cases h : b.ID = id
    · exact Or.inr (by simp [h])
    · exact Or.inl (by simp [h])
  · simp only [BookingRepository.UpdateBookingStatus, if_true] at hb'
    exact ⟨b', hb', Or.inl rfl⟩

/-- C13. With a column default of `settlement_status` other than SETTLED (and the
default NULL of `settlement_id`), the predicate "`settlementId` is non-null iff
`settlementStatus = SETTLED`" holds for every booking row that `CreateBooking` adds, and
if it holds for every row of the table it still does after `CreateBooking`, after
`CompleteBooking`, after `UpdateBookingStatus`, after `createSettlement` and after
`RunSettlementJob`, whatever faults they meet. -/
theorem settlementLinked_preserved (dflt : Option String) (s : Store)
    (hdflt : dflt ≠ some "SETTLED") :
    (∀ (insertFails : Bool) (rnd : Nat) (req : CreateRequest),
      ∀ b ∈ bookingsAdded s (BookingHandler.CreateBooking insertFails dflt rnd s req).2,
        settlementLinked b) ∧
    ((∀ b ∈ s.bookings, settlementLinked b) →
      (∀ (insertFails : Bool) (rnd : Nat) (req : CreateRequest),
        ∀ b ∈ (BookingHandler.CreateBooking insertFails dflt rnd s req).2.bookings,
          settlementLinked b) ∧
      (∀ (faults : CompleteFaults) (req : CompleteRequest),
        ∀ b ∈ (BookingHandler.CompleteBooking faults s req).2.bookings,
          settlementLinked b) ∧
      (∀ (execFails : Bool) (id : Int) (status : String),
        ∀ b ∈ (BookingRepository.UpdateBookingStatus execFails s id status).2.bookings,
          settlementLinked b) ∧
      (∀ (fault : TxFault) (shopID : Int) (sType : String) (amount : ℚ) (status : String)
          (bookingIDs : List Int) (start stop : Int),
        ∀ b ∈ (createSettlement fault s shopID sType amount status bookingIDs start
            stop).2.bookings, settlementLinked b) ∧
      (∀ (faults : JobFaults) (now : Time),
        ∀ b ∈ (RunSettlementJob faults now s).1.bookings, settlementLinked b)) := by
  have hnew : ∀ (insertFails : Bool) (rnd : Nat) (req : CreateRequest),
      ∀ b ∈ bookingsAdded s (BookingHandler.CreateBooking insertFails dflt rnd s req).2,
        settlementLinked b := by
    intro insertFails rnd req b hb
    obtain ⟨-, input, -, rfl⟩ := createBooking_added hb
    simp [settlementLinked, settlementIDDefault, hdflt]
  refine ⟨hnew, fun hall => ⟨?_, ?_, ?_, ?_, ?_⟩⟩
  · intro insertFails rnd req b hb
    have hadd := hnew insertFails rnd req
    rw [createBooking_bookingsAdded] at hadd
    cases hbody : req.body with
    | none =>
      have : (BookingHandler.CreateBooking insertFails dflt rnd s req).2 = s := by
        simp [BookingHandler.CreateBooking, hbody]
      rw [this] at hb
      exact hall b hb
    | some input =>
      rw [(createBooking_result insertFails dflt rnd s req input hbody).1] at hb
      rw [hbody] at hadd
      cases insertFails with
      | true => exact hall b (by simpa using hb)
      | false =>
        simp only [Bool.false_eq_true, if_false] at hb hadd
        rcases List.mem_append.mp hb with hb | hb
        · exact hall b hb
        · exact hadd b hb
  · intro faults req b' hb'
    obtain ⟨g, hg, hcases⟩ := completeBooking_store faults s req
    rw [hg] at hb'
    obtain ⟨b, hb, rfl⟩ := List.mem_map.mp hb'
    rcases hcases b with h | h <;> rw [h]
    · exact hall b hb
    · exact hall b hb
  · intro execFails id status b' hb'
    obtain ⟨b, hb, h | h⟩ := updateBookingStatus_bookings execFails s id status b' hb' <;>
      rw [h]
    · exact hall b hb
    · exact hall b hb
  · intro fault shopID sType amount status bookingIDs start stop b' hb'
    obtain ⟨b, hb, h⟩ :=
      createSettlement_bookings fault s shopID sType amount status bookingIDs start stop b' hb'
    exact settlementLinked_of_settledFrom h (hall b hb)
  · intro faults now b' hb'
    obtain ⟨b, hb, h⟩ := run_bookings faults (cutoffDate now) s b' hb'
    exact settlementLinked_of_settledFrom h (hall b hb)

/-- Witness of C13: the row added for `sampleRequest` has no settlement id and status
PENDING; every row of `weekStore` satisfies the predicate, and still does after a run
of the job that settles bookings 1 and 4. -/
theorem settlementLinked_preserved_witness :
    some "PENDING" ≠ some "SETTLED" ∧
    settlementLinked sampleRow ∧
    (RunSettlementJob JobFaults.none mondayUTC weekStore).1.bookings.map
      (fun b => (b.ID, b.SettlementStatus, b.SettlementID)) =
      [(1, some "SETTLED", some 3), (2, some "PENDING", none), (3, some "PENDING", none),
       (4, some "SETTLED", some 4), (5, some "SETTLED", some 2)] ∧
    ∀ b ∈ (RunSettlementJob JobFaults.none mondayUTC weekStore).1.bookings,
      settlementLinked b :=
  ⟨by decide,
    (settlementLinked_preserved (some "PENDING") payoutStore (by decide)).1 false 417
      sampleRequest sampleRow (by decide!),
    by decide!,
    ((settlementLinked_preserved (some "PENDING") weekStore (by decide)).2
      (by simp only [settlementLinked]; decide!)).2.2.2.2 JobFaults.none mondayUTC⟩

/-! ## Where completed bookings come from -/

/-- Every booking row after the handler `CompleteBooking` is a row from before, or a
row from before with the id of the request set to completed, in a call whose key
matches the key of the booking found. -/
theorem completeBooking_trace (faults : CompleteFaults) (s : Store) (req : CompleteRequest) :
    ∀ b' ∈ (BookingHandler.CompleteBooking faults s req).2.bookings,
      b' ∈ s.bookings ∨
      ∃ (id : Int) (key : String) (booking b : Booking),
        req = { id := some id, bookingKey := some key } ∧
        s.bookings.find? (fun x => x.ID = id) = some booking ∧
        booking.BookingKey = key ∧ b ∈ s.bookings ∧ b.ID = id ∧
        b' = { b with Status := "completed" } := by
  intro b' hb'
  obtain ⟨rid, rkey⟩ := req
  unfold BookingHandler.CompleteBooking at hb'
  cases rid with
  | none => exact Or.inl hb'
  | some id =>
    cases rkey with
    | none => exact Or.inl hb'
    | some key =>
      cases hg : faults.get with
      | true =>
        simp only [BookingRepository.GetBookingByID, hg, if_true] at hb'
        exact Or.inl hb'
      | false =>
        cases hfind : s.bookings.find? (fun x => x.ID = id) with
        | none =>
          simp only [BookingRepository.GetBookingByID, hg, Bool.false_eq_true, if_false,
            hfind] at hb'
          exact Or.inl hb'
        | some booking =>
          by_cases hk : booking.BookingKey = key
          · cases hu : faults.update with
            | true =>
              simp [BookingRepository.GetBookingByID, hg, hfind, hk, hu,
                BookingRepository.UpdateBookingStatus] at hb'
              exact Or.inl hb'
            | false =>
              simp only [BookingRepository.GetBookingByID, hg, Bool.false_eq_true, if_false,
                hfind, hk, ne_eq, not_true_eq_false, BookingRepository.UpdateBookingStatus,
                hu] at hb'
              obtain ⟨b, hb, rfl⟩ := List.mem_map.mp hb'
              by_cases hid : b.ID = id
              · exact Or.inr ⟨id, key, booking, b, rfl, hfind, hk, hb, hid, by simp [hid]⟩
              · exact Or.inl (by simpa [hid] using hb)
          · simp only [BookingRepository.GetBookingByID, hg, Bool.false_eq_true, if_false,
              hfind, ne_eq, hk, not_false_eq_true, if_true] at hb'
            exact Or.inl hb'

/-- C15, counterexample. The body of `completedRequest` carries the status completed.
`CreateBooking` answers 200 and persists booking 3 with status completed, without any
`CompleteBooking` call; the next run of the job settles it. -/
theorem createBooking_persists_completed :
    (BookingHandler.CreateBooking false (some "PENDING") 417 payoutStore
      completedRequest).1.code = 200 ∧
    (bookingsAdded payoutStore (BookingHandler.CreateBooking false (some "PENDING") 417
      payoutStore completedRequest).2).map (fun b => (b.ID, b.Status)) =
      [(3, "completed")] ∧
    ¬ (∀ b ∈ bookingsAdded payoutStore (BookingHandler.CreateBooking false (some "PENDING")
        417 payoutStore completedRequest).2, b.Status ≠ "completed") ∧
    (createdBy payoutStore
      (runOps (some "PENDING") payoutStore
        [Op.create false 417 completedRequest, Op.run JobFaults.none mondayUTC])).map
      (fun st => (st.ShopID, st.Bookings)) = [(7, [1, 2, 3])] := by
  decide!

/-- C15, as amended. `CreateBooking` persists the status of the request body as it is:
the booking it adds is completed exactly when the body says so. No operation changes
the status of an existing booking except `CompleteBooking` with a key matching the
stored one: a booking that is completed after a job run, a creation or a completion
request was completed before, or was created from a body with status completed, or was
the target of a `CompleteBooking` call whose key equals the key of the booking found. -/
theorem completed_from_request_or_gate (dflt : Option String) (s : Store) :
    (∀ (insertFails : Bool) (rnd : Nat) (req : CreateRequest),
      ∀ b ∈ bookingsAdded s (BookingHandler.CreateBooking insertFails dflt rnd s req).2,
        ∃ input, req.body = some input ∧ b.Status = input.Status) ∧
    (∀ (op : Op), ∀ b' ∈ (op.apply dflt s).bookings, b'.Status = "completed" →
      (∃ b ∈ s.bookings, b.ID = b'.ID ∧ b.Status = "completed") ∨
      (∃ (insertFails : Bool) (rnd : Nat) (req : CreateRequest) (input : Booking),
        op = Op.create insertFails rnd req ∧ req.body = some input ∧
        input.Status = "completed" ∧ b' ∈ bookingsAdded s (op.apply dflt s)) ∨
      (∃ (faults : CompleteFaults) (id : Int) (key : String) (booking : Booking),
        op = Op.complete faults { id := some id, bookingKey := some key } ∧ b'.ID = id ∧
        s.bookings.find? (fun x => x.ID = id) = some booking ∧
        booking.BookingKey = key)) := by
  constructor
  · intro insertFails rnd req b hb
    obtain ⟨-, input, hin, rfl⟩ := createBooking_added hb
    exact ⟨input, hin, rfl⟩
  · intro op b' hb' hc
    cases op with
    | run faults now =>
      obtain ⟨b, hb, h⟩ := run_bookings faults (cutoffDate now) s b' hb'
      refine Or.inl ⟨b, hb, ?_⟩
      rcases h with rfl | ⟨id, rfl⟩
      · exact ⟨rfl, hc⟩
      · exact ⟨rfl, hc⟩
    | create insertFails rnd req =>
      simp only [Op.apply] at hb' ⊢
      cases hbody : req.body with
      | none =>
        have : (BookingHandler.CreateBooking insertFails dflt rnd s req).2 = s := by
          simp [BookingHandler.CreateBooking, hbody]
        rw [this] at hb'
        exact Or.inl ⟨b', hb', rfl, hc⟩
      | some input =>
        have hadd := createBooking_bookingsAdded insertFails dflt rnd s req
        rw [hbody] at hadd
        rw [(createBooking_result insertFails dflt rnd s req input hbody).1] at hb'
        cases insertFails with
        | true => exact Or.inl ⟨b', by simpa using hb', rfl, hc⟩
        | false =>
          simp only [Bool.false_eq_true, if_false] at hb' hadd
          rcases List.mem_append.mp hb' with hb' | hb'
          · exact Or.inl ⟨b', hb', rfl, hc⟩
          · refine Or.inr (Or.inl ⟨false, rnd, req, input, rfl, hbody, ?_, ?_⟩)
            · rw [List.mem_singleton.mp hb'] at hc
              exact hc
            · rw [hadd]; exact hb'
    | complete faults req =>
      simp only [Op.apply] at hb'
      rcases completeBooking_trace faults s req b' hb' with h |
        ⟨id, key, booking, b, rfl, hfind, hk, hb, hid, rfl⟩
      · exact Or.inl ⟨b', h, rfl, hc⟩
      · exact Or.inr (Or.inr ⟨faults, id, key, booking, rfl, hid, hfind, hk⟩)

/-- Witness of the amended C15: the booking added for `completedRequest` has the status
of its body, completed. -/
theorem completed_from_request_or_gate_witness :
    ∃ input, completedRequest.body = some input ∧
      (insertedRow (some "PENDING") 417 payoutStore (some 42)
        (sampleBody 250 0 "completed")).Status = input.Status :=
  (completed_from_request_or_gate (some "PENDING") payoutStore).1 false 417 completedRequest
    (insertedRow (some "PENDING") 417 payoutStore (some 42) (sampleBody 250 0 "completed"))
    (by decide!)

/-! ## Failing shops in a run -/

/-- A scan failure ends the loop. In `weekStore` the row of shop 7 comes first; when its
scan fails the run logs 0 shops, creates no settlement and leaves every booking as it
was, also booking 4 of shop 9, whose row comes later. -/
theorem scan_failure_ends_run :
    (settlementQuery 738885 weekStore.bookings).map (·.shopID) = [7, 9] ∧
    RunSettlementJobAt shop7ScanFails 738885 weekStore = (weekStore, some 0) :=
  ⟨by decide!, by decide!⟩

/-- After a run in which every group commits, a further run with the same cutoff does
nothing to the store. -/
theorem second_run_noop (faults faults2 : JobFaults) (cutoff : Int) (s : Store)
    (hq : faults.query = false)
    (hc : ∀ row ∈ settlementQuery cutoff s.bookings, committed faults row = true) :
    (RunSettlementJobAt faults2 cutoff (RunSettlementJobAt faults cutoff s).1).1 =
      (RunSettlementJobAt faults cutoff s).1 := by
  have hnil := settlementQuery_eq_nil (run_leaves_none_eligible faults cutoff s hq hc)
  generalize (RunSettlementJobAt faults cutoff s).1 = s1 at hnil ⊢
  by_cases hq2 : faults2.query = true
  · simp [RunSettlementJobAt, hq2]
  · simp [RunSettlementJobAt, hq2, hnil, settlementLoop]

/-- With unique booking ids, a result row lists no booking id twice. -/
theorem row_ids_nodup {cutoff : Int} {bookings : List Booking}
    (hid : (bookings.map (·.ID)).Nodup) {row : SettlementRow}
    (hrow : row ∈ settlementQuery cutoff bookings) : row.bookingIDs.Nodup := by
  obtain ⟨hagg, -⟩ := mem_settlementQuery hrow
  rw [hagg]
  show ((shopGroup cutoff row.shopID bookings).map (·.ID)).Nodup
  exact hid.sublist ((List.filter_sublist _).map _)

/-- The booking lists of the new settlements, when every group commits, are the id
lists of the result rows. -/
theorem created_bookings_eq {news : List Settlement} {rows : List SettlementRow}
    (h : List.Forall₂ (fun st row => ∃ id, st = rowSettlement id row) news rows) :
    news.map (·.Bookings) = rows.map (·.bookingIDs) := by
  induction h with
  | nil => rfl
  | cons hab _ ih =>
    obtain ⟨id, rfl⟩ := hab
    simp only [List.map_cons, ih]
    rfl

/-- C14, counterexample. Two runs overlap on `payoutStore` (bookings 1 and 2 eligible,
one shop): both select before either writes. Each creates a settlement for the shop,
settlements 1 and 2, and both list the bookings 1 and 2: every eligible booking is
listed twice, and both runs count one shop settled. -/
theorem overlapping_runs_settle_twice :
    ((payoutStore.bookings.filter (eligible 738885)).map (·.ID) = [1, 2]) ∧
    (createdBy payoutStore
      (overlappingRuns JobFaults.none JobFaults.none 738885 payoutStore).1).map
      (fun st => (st.ID, st.ShopID, st.Bookings)) = [(1, 7, [1, 2]), (2, 7, [1, 2])] ∧
    listedBookings (createdBy payoutStore
      (overlappingRuns JobFaults.none JobFaults.none 738885 payoutStore).1) = [1, 2, 1, 2] ∧
    ¬ (listedBookings (createdBy payoutStore
      (overlappingRuns JobFaults.none JobFaults.none 738885 payoutStore).1)).Nodup ∧
    (overlappingRuns JobFaults.none JobFaults.none 738885 payoutStore).1.bookings.map
      (fun b => (b.ID, b.SettlementStatus, b.SettlementID)) =
      [(1, some "SETTLED", some 2), (2, some "SETTLED", some 2)] ∧
    (overlappingRuns JobFaults.none JobFaults.none 738885 payoutStore).2 = (1, 1) :=
  ⟨by decide!, by decide!, by decide!, by decide!, by decide!, by decide!⟩

/-- C14, as amended. For two runs of the job with the same cutoff that do not overlap,
the second selecting after the first has written (booking ids unique, nothing failing
in the first run, any faults in the second): the settlements the two runs create
together list every eligible booking and only those, and list no booking twice. -/
theorem sequential_runs_cover_eligible (faults faults2 : JobFaults) (cutoff : Int)
    (s : Store) (hid : (s.bookings.map (·.ID)).Nodup) (hq : faults.query = false)
    (hc : ∀ row ∈ settlementQuery cutoff s.bookings, committed faults row = true) :
    (listedBookings (createdBy s
      (RunSettlementJobAt faults2 cutoff (RunSettlementJobAt faults cutoff s).1).1)).Nodup ∧
    ∀ id : Int,
      id ∈ listedBookings (createdBy s
        (RunSettlementJobAt faults2 cutoff (RunSettlementJobAt faults cutoff s).1).1) ↔
      ∃ b ∈ s.bookings, eligible cutoff b = true ∧ b.ID = id := by
  rw [second_run_noop faults faults2 cutoff s hq hc]
  have hall := createdBy_run_all faults cutoff s hq hc
  have hlist : listedBookings (createdBy s (RunSettlementJobAt faults cutoff s).1) =
      ((settlementQuery cutoff s.bookings).map (·.bookingIDs)).flatten := by
    rw [listedBookings, List.flatMap_def, created_bookings_eq hall]
  rw [hlist]
  constructor
  · rw [List.nodup_flatten]
    constructor
    · intro l hl
      obtain ⟨row, hrow, rfl⟩ := List.mem_map.mp hl
      exact row_ids_nodup hid hrow
    · rw [List.pairwise_map]
      refine (settlementQuery_pairwise cutoff s.bookings hid).imp ?_
      intro r₁ r₂ h
      exact List.disjoint_left.mpr fun a h1 h2 => h a h1 h2
  · intro id
    rw [List.mem_flatten]
    constructor
    · rintro ⟨l, hl, hmem⟩
      obtain ⟨row, hrow, rfl⟩ := List.mem_map.mp hl
      obtain ⟨b, hb, hbid, he, -⟩ := row_ids_eligible hrow hmem
      exact ⟨b, hb, he, hbid⟩
    · rintro ⟨b, hb, he, rfl⟩
      obtain ⟨row, hrow, -, hmem⟩ := eligible_mem_row hb he
      exact ⟨row.bookingIDs, List.mem_map_of_mem _ hrow, hmem⟩

/-- Witness of the amended C14: two runs one after the other on `payoutStore`. -/
theorem sequential_runs_cover_eligible_witness :
    listedBookings (createdBy payoutStore
      (RunSettlementJobAt JobFaults.none 738885
        (RunSettlementJobAt JobFaults.none 738885 payoutStore).1).1) = [1, 2] ∧
    (listedBookings (createdBy payoutStore
      (RunSettlementJobAt JobFaults.none 738885
        (RunSettlementJobAt JobFaults.none 738885 payoutStore).1).1)).Nodup :=
  ⟨by decide!,
    (sequential_runs_cover_eligible JobFaults.none JobFaults.none 738885 payoutStore
      (by decide!) rfl (by decide!)).1⟩

end HairOne
